import Mathlib

/-!
# clusteredBigCache: the cluster coordinator

A shallow embedding of `Cluster/clusteredBigCache.go` (package `clusteredBigCache`).

* Go `int` configuration fields are `Int`: they are only compared with `1` and
  with the registry size, and `ReplicationFactor - 1` cannot wrap around for a
  replication factor above the least `int`. The rotation cursor `nodeIndex` and
  the registry positions are `Nat`: the cursor starts at `0` and is only ever
  assigned `(nodeIndex + 1) % len(peers)`.
* Pointers to `remoteNode` are modelled by the record itself; the one assignment
  made through such a pointer after it was stored (`indexInParent = index`) is
  written through to the stored entry.
* Goroutines, channels and sockets are modelled by their observable trace: the
  messages handed to `sendMessage`, the peers on which `join` / `start` was
  called, the entries pushed on `getRequestChan`.
* A Go panic is an explicit outcome.
-/

namespace Cluster

/-! ## Errors and results -/

/-- The Go `error` values this file can return: the two package-level errors, and
the errors made elsewhere (by the storage engine, by `net.Listen`, by
`errors.New` in `joinCluster`). -/
inductive Error where
  | ErrNotEnoughReplica
  | ErrNotFound
  | other (msg : String)
deriving DecidableEq, Repr

/-- How a call ends: it returns (with `nil` or an error) or it panics. -/
inductive Outcome where
  | returned (err : Option Error)
  | panicked (msg : String)
deriving DecidableEq, Repr

abbrev Bytes := List UInt8

/-! ## Configuration -/

/-- Cluster configuration (`ClusteredBigCacheConfig`). -/
structure ClusteredBigCacheConfig where
  Id : String
  Join : Bool
  JoinIp : String
  LocalAddresses : List String
  LocalPort : Int
  BindAll : Bool
  ConnectRetries : Int
  TerminateOnListenerExit : Bool
  ReplicationFactor : Int
  WriteAck : Bool
  GetTimeout : Int
deriving DecidableEq, Repr

/-! ## Peer connections (`remoteNode.go`, from its uses in the coordinator) -/

/-- Modelled from the spec: the states of the peer connection state machine of
`remoteNode.go` (§4.2); the coordinator itself only names `nodeStateHandshake`. -/
inductive nodeState where
  | nodeStateConnecting
  | nodeStateHandshake
  | nodeStateVerifying
  | nodeStateActive
  | nodeStateTerminated
deriving DecidableEq, Repr

/-- The configuration literal the coordinator builds for a peer
(`&remoteNodeConfig{IpAddress: .., ConnectRetries: .., Id: .., Sync: ..}`). -/
structure remoteNodeConfig where
  IpAddress : String
  ConnectRetries : Int
  Id : String := ""
  Sync : Bool
deriving DecidableEq, Repr

/-- Modelled from the spec: the attributes of a peer connection of `remoteNode.go`
that the coordinator reads or writes: its configuration (identity, address), its
state, its socket (present only once established) and its registry index
(`-1` while not registered, §3). -/
structure remoteNode where
  config : remoteNodeConfig
  state : nodeState
  connection : Option String
  indexInParent : Int
deriving DecidableEq, Repr

/-- Modelled from the spec: `newRemoteNode` of `remoteNode.go`: a fresh peer is
outbound-`Connecting`, has no socket and no registry index (§3, §4.2). -/
def newRemoteNode (config : remoteNodeConfig) : remoteNode :=
  { config := config, state := .nodeStateConnecting, connection := none, indexInParent := -1 }

/-- Modelled from the spec: `remoteNodeEqualFunc` of `remoteNode.go`: "the
Membership Registry treats peers as equal when identities match" (§3). -/
def remoteNodeEqualFunc (item1 item2 : remoteNode) : Bool :=
  item1.config.Id == item2.config.Id

/-- Modelled from the spec: `remoteNodeKeyFunc` of `remoteNode.go`: the registry
is "keyed by peer identity" (§2). -/
def remoteNodeKeyFunc (item : remoteNode) : String :=
  item.config.Id

/-! ## Membership registry (`utils.SliceList`) -/

/-- Modelled from the spec: `utils.SliceList`, "an ordered, indexed collection
of known peer handles, keyed by peer identity, supporting
add/remove/contains/lookup with a stable positional index per entry until
removal" (§2). Slot `i` holds the entry whose index is `i`, or nothing once it
was removed; other entries never move. -/
structure SliceList (α : Type) where
  items : List (Option α)
deriving DecidableEq, Repr

namespace SliceList

variable {α : Type}

/-- Modelled from the spec: `utils.NewSliceList`: the empty registry. -/
def NewSliceList : SliceList α := { items := [] }

/-- Modelled from the spec: `SliceList.Values`: the entries currently held, in
index order. -/
def Values (list : SliceList α) : List α :=
  list.items.filterMap id

/-- Modelled from the spec: `SliceList.Size`: the number of entries currently held. -/
def Size (list : SliceList α) : Nat :=
  list.items.countP Option.isSome

/-- Modelled from the spec: `SliceList.Keys`: the keys of the entries held. -/
def Keys (keyFunc : α → String) (list : SliceList α) : List String :=
  list.Values.map keyFunc

/-- Modelled from the spec: `SliceList.Contains`: whether an entry equal to
`item` (by the registry's equality) is held. -/
def Contains (equalFunc : α → α → Bool) (list : SliceList α) (item : α) : Bool :=
  list.Values.any (fun held => equalFunc held item)

/-- Modelled from the spec: `SliceList.Add`: stores `item` in a new slot and
returns the registry with the index of that slot. -/
def Add (list : SliceList α) (item : α) : SliceList α × Nat :=
  ({ items := list.items ++ [some item] }, list.items.length)

/-- Modelled from the spec: `SliceList.Remove`: empties the slot `index`; the
other entries keep their index. -/
def Remove (list : SliceList α) (index : Nat) : SliceList α :=
  { items := list.items.set index none }

/-- Modelled from the spec: lookup by index. -/
def Get (list : SliceList α) (index : Nat) : Option α :=
  (list.items.get? index).join

end SliceList

/-! ## The pending-connection tracker (`sync.Map`) -/

/-- The `sync.Map` of pending connections, identity ↦ address: at most one
entry per key. -/
structure SyncMap where
  entries : List (String × String)
deriving DecidableEq, Repr

namespace SyncMap

def Load (m : SyncMap) (key : String) : Option String :=
  (m.entries.find? (fun e => e.1 == key)).map Prod.snd

def Delete (m : SyncMap) (key : String) : SyncMap :=
  { entries := m.entries.filter (fun e => !(e.1 == key)) }

def Store (m : SyncMap) (key value : String) : SyncMap :=
  { entries := (m.entries.filter (fun e => !(e.1 == key))) ++ [(key, value)] }

end SyncMap

/-! ## Local storage engine (`bigcache.BigCache`) -/

/-- The two operations of the local storage engine that the coordinator calls,
taken as a parameter: `Set(key, data, duration)` returns the absolute expiry and
an error, `Get(key)` the payload or an error. `κ` is the engine's state (its
entries and its clock). -/
structure BigCache (κ : Type) where
  Set : κ → String → Bytes → Int → κ × Nat × Option Error
  Get : κ → String → Except Error Bytes

/-- Modelled from the spec: a local key-value storage engine with the "simple
synchronous operations (get/set ...)" of §1: the entries with their absolute
expiry, a clock, and a bound on the size of an entry. -/
structure MemCache where
  now : Nat
  maxEntrySize : Nat
  entries : List (String × Bytes × Nat)
deriving DecidableEq, Repr

/-- Modelled from the spec: `Set` of the storage engine: refuses an entry that is
too big, otherwise stores it under its key with expiry `now + duration`. -/
def MemCache.Set (cache : MemCache) (key : String) (data : Bytes) (duration : Int) :
    MemCache × Nat × Option Error :=
  if cache.maxEntrySize < data.length then
    (cache, 0, some (.other "entry exceeds max size"))
  else
    let expiry := cache.now + duration.toNat
    ({ cache with entries := (key, data, expiry) :: cache.entries.filter (fun e => !(e.1 == key)) },
      expiry, none)

/-- Modelled from the spec: `Get` of the storage engine: the payload stored
under the key, or an error when there is none. -/
def MemCache.Get (cache : MemCache) (key : String) : Except Error Bytes :=
  match cache.entries.find? (fun e => e.1 == key) with
  | some entry => .ok entry.2.1
  | none => .error (.other "Entry not found")

/-- The storage engine `MemCache` as the coordinator's local store. -/
def memCache : BigCache MemCache :=
  { Set := MemCache.Set, Get := MemCache.Get }

/-- An empty store at time 1000 that takes entries of up to 4 bytes. -/
def emptyMemCache : MemCache :=
  { now := 1000, maxEntrySize := 4, entries := [] }

/-! ## Messages -/

/-- Replication record `message.PutMessage{Key, Data, Expiry}`. -/
structure PutMessage where
  Key : String
  Data : Bytes
  Expiry : Nat
deriving DecidableEq, Repr

/-- Gossip record `message.ProposedPeer`. -/
structure ProposedPeer where
  Id : String
  IpAddress : String
deriving DecidableEq, Repr

/-- An in-flight read: `getRequestData{key, replyChan, done}`; the two channels
are made by `GetData` and are identified by their allocation number. -/
structure getRequestData where
  key : String
  replyChan : Nat
  done : Nat
deriving DecidableEq, Repr

structure getReplyData where
  data : Bytes
deriving DecidableEq, Repr

/-- Queue entry `getRequestDataWrapper{r, g}`: the peer to ask and the request. -/
structure getRequestDataWrapper where
  r : remoteNode
  g : getRequestData
deriving DecidableEq, Repr

/-! ## The coordinator -/

/-- Cluster definition (`ClusteredBigCache`), with the trace of what it handed
to its peers (`sent`, `joined`, `started`) and the number of channels made. -/
structure ClusteredBigCache (κ : Type) where
  config : ClusteredBigCacheConfig
  cache : κ
  remoteNodes : SliceList remoteNode
  pendingConn : SyncMap
  nodeIndex : Nat
  getRequestChan : List getRequestDataWrapper
  sent : List (remoteNode × PutMessage)
  joined : List remoteNode
  started : List remoteNode
  chans : Nat

variable {κ : Type}

/-- Creates a new local node (`New`); `cache` is the freshly made storage engine. -/
def New (config : ClusteredBigCacheConfig) (cache : κ) : ClusteredBigCache κ :=
  { config := config
    cache := cache
    remoteNodes := SliceList.NewSliceList
    pendingConn := { entries := [] }
    nodeIndex := 0
    getRequestChan := []
    sent := []
    joined := []
    started := []
    chans := 0 }

/-- The body of `checkConfig`: a port below 1 panics, then the replication factor
and the get timeout are raised to their defaults. -/
def checkConfig (config : ClusteredBigCacheConfig) : Except String ClusteredBigCacheConfig :=
  if config.LocalPort < 1 then
    .error "Local port can not be zero."
  else
    let config1 :=
      if config.ReplicationFactor < 1 then { config with ReplicationFactor := 1 } else config
    let config2 :=
      if config1.GetTimeout < 1 then { config1 with GetTimeout := 3 } else config1
    .ok config2

/-- Joins an existing cluster (`joinCluster`): an empty seed address is an error,
otherwise a synchronous peer connection to the seed is made and joined. -/
def joinCluster (node : ClusteredBigCache κ) : ClusteredBigCache κ × Option Error :=
  if node.config.JoinIp = "" then
    (node, some (.other
      "the server's IP to join can not be empty since Join is true, there must be a JoinIP"))
  else
    let peer := newRemoteNode
      { IpAddress := node.config.JoinIp, ConnectRetries := node.config.ConnectRetries, Sync := true }
    ({ node with joined := node.joined ++ [peer] }, none)

/-- Starts this cluster node (`Start`). `generatedId` is what
`utils.GenerateNodeId(32)` would return and `listenErr` the error of
`net.Listen`, if any; the goroutines it launches are not part of the result. -/
def Start (node : ClusteredBigCache κ) (generatedId : String) (listenErr : Option Error) :
    ClusteredBigCache κ × Outcome :=
  match checkConfig node.config with
  | .error msg => (node, .panicked msg)
  | .ok config =>
    let config1 := if config.Id = "" then { config with Id := generatedId } else config
    let node1 := { node with config := config1 }
    match listenErr with
    | some err => (node1, .returned (some err))
    | none =>
      if node1.config.Join = true then
        let joinedNode := joinCluster node1
        (joinedNode.1, .returned joinedNode.2)
      else
        (node1, .returned none)

/-- Event `eventRemoteNodeDisconneced`: a peer announces its disconnection. -/
def eventRemoteNodeDisconneced (node : ClusteredBigCache κ) (peer : remoteNode) :
    ClusteredBigCache κ :=
  if peer.indexInParent < 0 then
    node
  else
    { node with remoteNodes := node.remoteNodes.Remove peer.indexInParent.toNat }

/-- Util function `getRemoteNodes`: all known peers. -/
def getRemoteNodes (node : ClusteredBigCache κ) : List remoteNode :=
  node.remoteNodes.Values

/-- Event `eventVerifyRemoteNode`: a peer asks to be admitted. Returns the
coordinator, the peer (its `indexInParent` is assigned on admission) and the
verdict. The registry holds the peer by pointer, so the stored entry shows the
assigned index as well. -/
def eventVerifyRemoteNode (node : ClusteredBigCache κ) (peer : remoteNode) :
    ClusteredBigCache κ × remoteNode × Bool :=
  if node.remoteNodes.Contains remoteNodeEqualFunc peer then
    (node, peer, false)
  else
    let added := node.remoteNodes.Add peer
    let index := added.2
    let peer1 := { peer with indexInParent := (index : Int) }
    let remoteNodes : SliceList _ := { items := added.1.items.set index (some peer1) }
    ({ node with
        remoteNodes := remoteNodes
        pendingConn := node.pendingConn.Delete peer1.config.Id },
      peer1, true)

/-- Event `eventUnableToConnect`: a connection attempt failed for good. -/
def eventUnableToConnect (node : ClusteredBigCache κ) (config : remoteNodeConfig) :
    ClusteredBigCache κ :=
  { node with pendingConn := node.pendingConn.Delete config.Id }

/-- One accept of the listening socket: a connection (with its remote address)
or an error. -/
inductive AcceptResult where
  | conn (remoteAddr : String)
  | err (msg : String)
deriving DecidableEq, Repr

/-- Where the accept loop stands after the accepts it was given: still in the
loop (blocked in `Accept`) with its consecutive-error counter, returned after
the loop was left, or panicked after the loop was left. -/
inductive ListenStatus where
  | accepting (errCount : Nat)
  | exited
  | panicked (msg : String)
deriving DecidableEq, Repr

/-- What `listen` has done: how many accepts it consumed and where it stands. -/
structure ListenResult (κ : Type) where
  node : ClusteredBigCache κ
  accepted : Nat
  status : ListenStatus

/-- The peer connection `listen` builds from a new connection: `newRemoteNode`,
then `setState(nodeStateHandshake)` and `setConnection` with the socket (the
two setters of `remoteNode.go` as assignments of the field). -/
def inboundPeer (connectRetries : Int) (remoteAddr : String) : remoteNode :=
  let peer := newRemoteNode
    { IpAddress := remoteAddr, ConnectRetries := connectRetries, Sync := false }
  let peer1 := { peer with state := nodeState.nodeStateHandshake }
  { peer1 with connection := some remoteAddr }

/-- The `for` loop of `listen`, run from consecutive-error counter `errCount`
over the outcomes of the successive `Accept` calls. -/
def listenLoop (node : ClusteredBigCache κ) (errCount accepted : Nat) :
    List AcceptResult → ListenResult κ
  | [] => { node := node, accepted := accepted, status := .accepting errCount }
  | .err _ :: rest =>
    let errCount1 := errCount + 1
    if errCount1 ≥ 5 then
      { node := node
        accepted := accepted + 1
        status :=
          if node.config.TerminateOnListenerExit then
            .panicked "listening loop terminated unexpectedly due to too many errors"
          else .exited }
    else
      listenLoop node errCount1 (accepted + 1) rest
  | .conn remoteAddr :: rest =>
    let peer := inboundPeer node.config.ConnectRetries remoteAddr
    listenLoop { node with started := node.started ++ [peer] } 0 (accepted + 1) rest

/-- Listens for new connections to this node (`listen`). -/
def listen (node : ClusteredBigCache κ) (accepts : List AcceptResult) : ListenResult κ :=
  listenLoop node 0 0 accepts

/-- The body of the loop of `connectToExistingNodes`, for one value received
from `joinQueue`. -/
def connectToExistingNode (node : ClusteredBigCache κ) (value : ProposedPeer) :
    ClusteredBigCache κ :=
  if (node.pendingConn.Load value.Id).isSome then
    node
  else
    let keys := node.remoteNodes.Keys remoteNodeKeyFunc
    if value.Id ∈ keys then
      node
    else
      let peer := newRemoteNode
        { IpAddress := value.IpAddress, ConnectRetries := node.config.ConnectRetries,
          Id := value.Id, Sync := false }
      { node with
          joined := node.joined ++ [peer]
          pendingConn := node.pendingConn.Store value.Id value.IpAddress }

/-- The goroutine `connectToExistingNodes`, run over the values received from
`joinQueue`, in arrival order. -/
def connectToExistingNodes (node : ClusteredBigCache κ) :
    List ProposedPeer → ClusteredBigCache κ
  | [] => node
  | value :: rest => connectToExistingNodes (connectToExistingNode node value) rest

/-- The replication loop of `PutData`, `for x := 0; x < ReplicationFactor - 1; x++`,
with `count` iterations left: sends to `peers[nodeIndex]` and advances the
cursor. Returns the cursor, the messages sent and whether the loop ran to its
end (`false`: `peers[nodeIndex]` was out of range). -/
def replicationLoop (peers : List remoteNode) (msg : PutMessage) :
    Nat → Nat → List (remoteNode × PutMessage) → Nat × List (remoteNode × PutMessage) × Bool
  | 0, nodeIndex, sent => (nodeIndex, sent, true)
  | count + 1, nodeIndex, sent =>
    match peers.get? nodeIndex with
    | none => (nodeIndex, sent, false)
    | some peer =>
      replicationLoop peers msg count ((nodeIndex + 1) % peers.length) (sent ++ [(peer, msg)])

/-- Writes locally and replicates (`PutData`). -/
def PutData (bc : BigCache κ) (node : ClusteredBigCache κ) (key : String) (data : Bytes)
    (duration : Int) : ClusteredBigCache κ × Outcome :=
  if node.config.ReplicationFactor = 1 then
    let set := bc.Set node.cache key data duration
    ({ node with cache := set.1 }, .returned set.2.2)
  else if (node.remoteNodes.Size : Int) < node.config.ReplicationFactor then
    (node, .returned (some .ErrNotEnoughReplica))
  else
    let peers := node.remoteNodes.Values
    let set := bc.Set node.cache key data duration
    let expiryTime := set.2.1
    match set.2.2 with
    | some err => ({ node with cache := set.1 }, .returned (some err))
    | none =>
      let loop := replicationLoop peers { Key := key, Data := data, Expiry := expiryTime }
        (node.config.ReplicationFactor - 1).toNat node.nodeIndex node.sent
      ({ node with cache := set.1, nodeIndex := loop.1, sent := loop.2.1 },
        if loop.2.2 then .returned none else .panicked "index out of range")

/-- Reads locally, then from the cluster (`GetData`). `answer` is what the
worker serving a queue entry gets onto the reply channel before the timer
fires, if anything; of several answers the `select` is given the one of the
earliest queue entry. -/
def GetData (bc : BigCache κ) (node : ClusteredBigCache κ) (key : String)
    (answer : getRequestDataWrapper → Option getReplyData) :
    ClusteredBigCache κ × Except Error Bytes :=
  match bc.Get node.cache key with
  | .ok data => (node, .ok data)
  | .error _ =>
    let peers := getRemoteNodes node
    let reqData : getRequestData :=
      { key := key, replyChan := node.chans, done := node.chans + 1 }
    let requests := peers.map (fun peer => ({ r := peer, g := reqData } : getRequestDataWrapper))
    let node1 :=
      { node with getRequestChan := node.getRequestChan ++ requests, chans := node.chans + 2 }
    match requests.findSome? answer with
    | some replyData => (node1, .ok replyData.data)
    | none => (node1, .error .ErrNotFound)

/-- No-op (`DeleteData`). -/
def DeleteData (node : ClusteredBigCache κ) (_key : String) : ClusteredBigCache κ × Outcome :=
  (node, .returned none)

/-! ## The accept loop, as the specification words it -/

/-- Whether an accept failed. -/
def AcceptResult.isErr : AcceptResult → Bool
  | .err _ => true
  | .conn _ => false

/-- The number of consecutive failed accepts at the end of a sequence of accepts. -/
def errRun (accepts : List AcceptResult) : Nat :=
  (accepts.reverse.takeWhile AcceptResult.isErr).length

/-- Five consecutive accepts have failed at point `k`: the accepts number
`k - 5` to `k - 1` (the last five of the first `k`) all failed. -/
def fiveFailedAt (accepts : List AcceptResult) (k : Nat) : Prop :=
  5 ≤ k ∧ k ≤ accepts.length ∧
    ∀ i, k - 5 ≤ i → i < k → ∃ msg, accepts.get? i = some (.err msg)

/-- One inbound peer connection per successful accept, in order. -/
def spawned (connectRetries : Int) : List AcceptResult → List remoteNode
  | [] => []
  | .err _ :: rest => spawned connectRetries rest
  | .conn remoteAddr :: rest => inboundPeer connectRetries remoteAddr :: spawned connectRetries rest

/-- Whether the accept loop was left. -/
def ListenStatus.stopped : ListenStatus → Bool
  | .accepting _ => false
  | _ => true

/-! ## Mesh discovery, as the specification words it -/

/-- The announcements that lead to a connection, in arrival order: an
announcement is skipped when its identity is known (pending or registered), and
an announcement that is not skipped makes its identity known to those after it. -/
def announcedUnknown (known : List String) : List ProposedPeer → List ProposedPeer
  | [] => []
  | value :: rest =>
    if value.Id ∈ known then announcedUnknown known rest
    else value :: announcedUnknown (value.Id :: known) rest

/-- The identities a coordinator knows: the pending ones and the registered ones. -/
def knownIds (node : ClusteredBigCache κ) : List String :=
  node.pendingConn.entries.map Prod.fst ++ node.remoteNodes.Keys remoteNodeKeyFunc

/-! ## Runs of the coordinator -/

/-- What can happen to a coordinator: the callbacks of its peers, a value
received from `joinQueue`, a write. -/
inductive Event where
  | verify (peer : remoteNode)
  | disconnect (peer : remoteNode)
  | unableToConnect (config : remoteNodeConfig)
  | announce (value : ProposedPeer)
  | put (key : String) (data : Bytes) (duration : Int)

/-- The coordinator after one event (after a write that panics: as the write
left it). -/
def step (bc : BigCache κ) (node : ClusteredBigCache κ) : Event → ClusteredBigCache κ
  | .verify peer => (eventVerifyRemoteNode node peer).1
  | .disconnect peer => eventRemoteNodeDisconneced node peer
  | .unableToConnect config => eventUnableToConnect node config
  | .announce value => connectToExistingNode node value
  | .put key data duration => (PutData bc node key data duration).1

/-- The coordinator after a sequence of events. -/
def run (bc : BigCache κ) (node : ClusteredBigCache κ) (events : List Event) :
    ClusteredBigCache κ :=
  events.foldl (step bc) node

/-! ## Sample values -/

/-- A configuration listening on port 9911 with the given replication factor. -/
def sampleConfig (replicationFactor : Int) : ClusteredBigCacheConfig :=
  { Id := "node1", Join := false, JoinIp := "", LocalAddresses := [], LocalPort := 9911,
    BindAll := true, ConnectRetries := 2, TerminateOnListenerExit := false,
    ReplicationFactor := replicationFactor, WriteAck := false, GetTimeout := 3 }

/-- A verified peer connection with the given identity, not yet registered. -/
def samplePeer (id : String) : remoteNode :=
  { config := { IpAddress := "10.0.0.1:9911", ConnectRetries := 2, Id := id, Sync := false }
    state := .nodeStateVerifying
    connection := some "10.0.0.1:9911"
    indexInParent := -1 }

/-- A fresh coordinator over an empty `MemCache`. -/
def sampleNode (replicationFactor : Int) : ClusteredBigCache MemCache :=
  New (sampleConfig replicationFactor) emptyMemCache

/-- The coordinator `sampleNode` after the peers `A`, `B` and `C` were admitted. -/
def sampleCluster (replicationFactor : Int) : ClusteredBigCache MemCache :=
  run memCache (sampleNode replicationFactor)
    [.verify (samplePeer "A"), .verify (samplePeer "B"), .verify (samplePeer "C")]

/-- The write used in the sample runs: key `k`, payload `[1]`, 60 units of ttl. -/
def samplePut : Event := .put "k" [1] 60

/-- The coordinator with replication factor 2 after: `A`, `B` and `C` are
admitted; two writes; `C` (registered at index 2) disconnects. -/
def staleCursorNode : ClusteredBigCache MemCache :=
  run memCache (sampleCluster 2)
    [samplePut, samplePut, .disconnect { samplePeer "C" with indexInParent := 2 }]

/-! # Theorems -/

/-! ## Configuration normalisation -/

/-- The configuration `Start` leaves on the node when `checkConfig` does not
panic: the normalised configuration, with the generated identity when it had
none; `Start` then returns (nil or an error), it does not panic. -/
theorem Start_config (node : ClusteredBigCache κ) (generatedId : String)
    (listenErr : Option Error) (normal : ClusteredBigCacheConfig)
    (h : checkConfig node.config = .ok normal) :
    (∃ err, (Start node generatedId listenErr).2 = .returned err) ∧
    (Start node generatedId listenErr).1.config =
      (if normal.Id = "" then { normal with Id := generatedId } else normal) ∧
    (Start node generatedId listenErr).1.config.ReplicationFactor = normal.ReplicationFactor ∧
    (Start node generatedId listenErr).1.config.GetTimeout = normal.GetTimeout := by
  have hcfg : (Start node generatedId listenErr).1.config =
      (if normal.Id = "" then { normal with Id := generatedId } else normal) ∧
      ∃ err, (Start node generatedId listenErr).2 = .returned err := by
    have key : ∀ n : ClusteredBigCache κ, (joinCluster n).1.config = n.config := by
      intro n
      unfold joinCluster
      split <;> rfl
    unfold Start
    rw [h]
    cases listenErr with
    | some err => exact ⟨rfl, _, rfl⟩
    | none =>
      dsimp only
      split_ifs <;> first
        | exact ⟨rfl, _, rfl⟩
        | exact ⟨key _, _, rfl⟩
  refine ⟨hcfg.2, hcfg.1, ?_, ?_⟩
  · rw [hcfg.1]; split <;> rfl
  · rw [hcfg.1]; split <;> rfl

/-- Claim C8. Configuration normalisation at `Start` (`checkConfig`): a listen
port below 1 panics (`Start` panics, it returns no error); otherwise the
replication factor becomes 1 when it was below 1 and the get timeout 3 when it
was below 1, both are unchanged when they were at least 1, no other field is
changed by the normalisation, both are at least 1 afterwards, and normalising
the result again gives it back. `Start` does not panic then, and the node it
leaves holds the normalised configuration (with the identity `Start` generates
next, when the configuration had none). -/
theorem checkConfig_normalises (config : ClusteredBigCacheConfig) :
    (config.LocalPort < 1 →
      checkConfig config = .error "Local port can not be zero." ∧
      ∀ (κ : Type) (node : ClusteredBigCache κ) (generatedId : String) (listenErr : Option Error),
        node.config = config →
        Start node generatedId listenErr = (node, .panicked "Local port can not be zero.")) ∧
    (1 ≤ config.LocalPort →
      ∃ normal : ClusteredBigCacheConfig,
        checkConfig config = .ok normal ∧
        (config.ReplicationFactor < 1 → normal.ReplicationFactor = 1) ∧
        (1 ≤ config.ReplicationFactor → normal.ReplicationFactor = config.ReplicationFactor) ∧
        (config.GetTimeout < 1 → normal.GetTimeout = 3) ∧
        (1 ≤ config.GetTimeout → normal.GetTimeout = config.GetTimeout) ∧
        normal = { config with
          ReplicationFactor := normal.ReplicationFactor, GetTimeout := normal.GetTimeout } ∧
        1 ≤ normal.ReplicationFactor ∧ 1 ≤ normal.GetTimeout ∧
        checkConfig normal = .ok normal ∧
        ∀ (κ : Type) (node : ClusteredBigCache κ) (generatedId : String)
            (listenErr : Option Error),
          node.config = config →
          (∃ err, (Start node generatedId listenErr).2 = .returned err) ∧
          (Start node generatedId listenErr).1.config =
            (if normal.Id = "" then { normal with Id := generatedId } else normal) ∧
          (Start node generatedId listenErr).1.config.ReplicationFactor =
            normal.ReplicationFactor ∧
          (Start node generatedId listenErr).1.config.GetTimeout = normal.GetTimeout ∧
          1 ≤ (Start node generatedId listenErr).1.config.ReplicationFactor ∧
          1 ≤ (Start node generatedId listenErr).1.config.GetTimeout) := by
  refine ⟨fun hport => ⟨?_, ?_⟩, fun hport => ?_⟩
  · simp [checkConfig, hport]
  · intro κ node generatedId listenErr hcfg
    simp [Start, checkConfig, hcfg, hport]
  · have hp : ¬ config.LocalPort < 1 := by omega
    have hpure : ∃ normal : ClusteredBigCacheConfig,
        checkConfig config = .ok normal ∧
        (config.ReplicationFactor < 1 → normal.ReplicationFactor = 1) ∧
        (1 ≤ config.ReplicationFactor → normal.ReplicationFactor = config.ReplicationFactor) ∧
        (config.GetTimeout < 1 → normal.GetTimeout = 3) ∧
        (1 ≤ config.GetTimeout → normal.GetTimeout = config.GetTimeout) ∧
        normal = { config with
          ReplicationFactor := normal.ReplicationFactor, GetTimeout := normal.GetTimeout } ∧
        1 ≤ normal.ReplicationFactor ∧ 1 ≤ normal.GetTimeout ∧
        checkConfig normal = .ok normal := by
      by_cases hR : config.ReplicationFactor < 1 <;> by_cases hT : config.GetTimeout < 1
      · refine ⟨{ config with ReplicationFactor := 1, GetTimeout := 3 }, ?_⟩
        simp [checkConfig, hp, hR, hT]
      · refine ⟨{ config with ReplicationFactor := 1 }, ?_⟩
        simp [checkConfig, hp, hR, hT]
        omega
      · refine ⟨{ config with GetTimeout := 3 }, ?_⟩
        simp [checkConfig, hp, hR, hT]
        omega
      · refine ⟨config, ?_⟩
        simp [checkConfig, hp, hR, hT]
        omega
    obtain ⟨normal, h1, h2, h3, h4, h5, h6, h7, h8, h9⟩ := hpure
    refine ⟨normal, h1, h2, h3, h4, h5, h6, h7, h8, h9, ?_⟩
    intro κ node generatedId listenErr hcfg
    obtain ⟨s1, s2, s3, s4⟩ :=
      Start_config node generatedId listenErr normal (by rw [hcfg]; exact h1)
    exact ⟨s1, s2, s3, s4, by rw [s3]; exact h7, by rw [s4]; exact h8⟩

/-- Witness of `checkConfig_normalises`: port 0 panics; port 9911 with replication
factor 0 and get timeout 0 is normalised, and the started node has replication
factor 1 and get timeout 3. -/
theorem checkConfig_normalises_witness :
    checkConfig { sampleConfig 0 with LocalPort := 0 } = .error "Local port can not be zero." ∧
    (Start (New { sampleConfig 0 with GetTimeout := 0 } emptyMemCache) "generated"
        none).1.config =
      { sampleConfig 1 with GetTimeout := 3 } := by
  refine ⟨((checkConfig_normalises { sampleConfig 0 with LocalPort := 0 }).1 (by decide)).1, ?_⟩
  obtain ⟨normal, h, hR, -, hT, -, heq, -, -, -, hstart⟩ :=
    (checkConfig_normalises { sampleConfig 0 with GetTimeout := 0 }).2 (by decide)
  have hc := (hstart MemCache (New { sampleConfig 0 with GetTimeout := 0 } emptyMemCache)
    "generated" none rfl).2.1
  have hR1 := hR (by decide)
  have hT1 := hT (by decide)
  rw [hc, heq, hR1, hT1]
  rfl

/-! ## The registry -/

theorem SliceList.Size_eq_length_Values {α : Type} (list : SliceList α) :
    list.Size = list.Values.length := by
  obtain ⟨items⟩ := list
  simp only [SliceList.Size, SliceList.Values]
  induction items with
  | nil => rfl
  | cons head tail ih => cases head <;> simp [List.countP_cons, List.filterMap_cons, ih]

theorem SliceList.Values_Remove_sublist {α : Type} (list : SliceList α) (index : Nat) :
    (list.Remove index).Values.Sublist list.Values := by
  obtain ⟨items⟩ := list
  simp only [SliceList.Remove, SliceList.Values]
  induction items generalizing index with
  | nil => simp
  | cons head tail ih =>
    cases index with
    | zero => cases head <;> simp [List.filterMap_cons]
    | succ i =>
      cases head with
      | none => simpa [List.filterMap_cons] using ih i
      | some a => simpa [List.filterMap_cons] using ih i

theorem set_length_append_singleton {α : Type} (l : List α) (a b : α) :
    (l ++ [a]).set l.length b = l ++ [b] := by
  induction l with
  | nil => rfl
  | cons head tail ih => simp [ih]

theorem SliceList.Contains_iff (list : SliceList remoteNode) (peer : remoteNode) :
    list.Contains remoteNodeEqualFunc peer = true ↔
      ∃ held ∈ list.Values, held.config.Id = peer.config.Id := by
  simp [SliceList.Contains, remoteNodeEqualFunc]

theorem eventVerifyRemoteNode_refused (node : ClusteredBigCache κ) (peer : remoteNode)
    (h : node.remoteNodes.Contains remoteNodeEqualFunc peer = true) :
    eventVerifyRemoteNode node peer = (node, peer, false) := by
  simp [eventVerifyRemoteNode, h]

theorem eventVerifyRemoteNode_added (node : ClusteredBigCache κ) (peer : remoteNode)
    (h : node.remoteNodes.Contains remoteNodeEqualFunc peer = false) :
    eventVerifyRemoteNode node peer =
      ({ node with
          remoteNodes :=
            { items := node.remoteNodes.items ++
                [some { peer with indexInParent := (node.remoteNodes.items.length : Int) }] }
          pendingConn := node.pendingConn.Delete peer.config.Id },
        { peer with indexInParent := (node.remoteNodes.items.length : Int) }, true) := by
  simp [eventVerifyRemoteNode, h, SliceList.Add, set_length_append_singleton]

/-- The identities of the registered peers. -/
theorem Values_appended (list : SliceList remoteNode) (peer : remoteNode) :
    (SliceList.Values { items := list.items ++ [some peer] }) = list.Values ++ [peer] := by
  simp [SliceList.Values, List.filterMap_append]

theorem PutData_remoteNodes (bc : BigCache κ) (node : ClusteredBigCache κ) (key : String)
    (data : Bytes) (duration : Int) :
    (PutData bc node key data duration).1.remoteNodes = node.remoteNodes := by
  unfold PutData
  split
  · rfl
  · split
    · rfl
    · dsimp only
      split <;> rfl

theorem connectToExistingNode_remoteNodes (node : ClusteredBigCache κ) (value : ProposedPeer) :
    (connectToExistingNode node value).remoteNodes = node.remoteNodes := by
  unfold connectToExistingNode
  split
  · rfl
  · dsimp only
    split <;> rfl

/-- One event keeps the identities of the registered peers pairwise distinct. -/
theorem step_nodup (bc : BigCache κ) (node : ClusteredBigCache κ) (event : Event)
    (h : (node.remoteNodes.Values.map (fun held => held.config.Id)).Nodup) :
    ((step bc node event).remoteNodes.Values.map (fun held => held.config.Id)).Nodup := by
  cases event with
  | verify peer =>
    simp only [step]
    cases hc : node.remoteNodes.Contains remoteNodeEqualFunc peer with
    | true => rw [eventVerifyRemoteNode_refused node peer hc]; exact h
    | false =>
      rw [eventVerifyRemoteNode_added node peer hc]
      simp only [Values_appended, List.map_append, List.map_cons, List.map_nil]
      rw [List.nodup_append]
      refine ⟨h, List.nodup_singleton _, ?_⟩
      have hnot : ¬ ∃ held ∈ node.remoteNodes.Values, held.config.Id = peer.config.Id := by
        rw [← SliceList.Contains_iff, hc]; simp
      intro id hid hid1
      simp only [List.mem_singleton] at hid1
      simp only [List.mem_map] at hid
      obtain ⟨held, hmem, rfl⟩ := hid
      exact hnot ⟨held, hmem, hid1⟩
  | disconnect peer =>
    simp only [step, eventRemoteNodeDisconneced]
    split
    · exact h
    · exact List.Nodup.sublist
        ((SliceList.Values_Remove_sublist node.remoteNodes _).map _) h
  | unableToConnect config => exact h
  | announce value =>
    simp only [step, connectToExistingNode_remoteNodes]; exact h
  | put key data duration =>
    simp only [step, PutData_remoteNodes]; exact h

theorem run_nodup (bc : BigCache κ) (events : List Event) (node : ClusteredBigCache κ)
    (h : (node.remoteNodes.Values.map (fun held => held.config.Id)).Nodup) :
    ((run bc node events).remoteNodes.Values.map (fun held => held.config.Id)).Nodup := by
  induction events generalizing node with
  | nil => exact h
  | cons event rest ih => exact ih _ (step_nodup bc node event h)

/-- Claim C6. Admission (`eventVerifyRemoteNode`) returns false exactly when a
peer with the same identity is registered, and then the coordinator (registry,
pending tracker) and the peer (its index) are unchanged; otherwise the peer is
added to the registry at the index `Add` returns, that index is recorded on the
peer, its identity is removed from the pending tracker and the result is true.
From `New`, after every sequence of events (admissions and disconnections among
them) the registered identities are pairwise distinct. -/
theorem eventVerifyRemoteNode_deduplicates :
    (∀ (κ : Type) (node : ClusteredBigCache κ) (peer : remoteNode),
      ((eventVerifyRemoteNode node peer).2.2 = false ↔
        ∃ held ∈ node.remoteNodes.Values, held.config.Id = peer.config.Id) ∧
      ((eventVerifyRemoteNode node peer).2.2 = false →
        (eventVerifyRemoteNode node peer).1 = node ∧
        (eventVerifyRemoteNode node peer).2.1 = peer) ∧
      ((eventVerifyRemoteNode node peer).2.2 = true →
        (eventVerifyRemoteNode node peer).2.1 =
          { peer with indexInParent := ((node.remoteNodes.Add peer).2 : Int) } ∧
        (eventVerifyRemoteNode node peer).1.remoteNodes.Values =
          node.remoteNodes.Values ++ [(eventVerifyRemoteNode node peer).2.1] ∧
        (eventVerifyRemoteNode node peer).1.remoteNodes.Get (node.remoteNodes.Add peer).2 =
          some (eventVerifyRemoteNode node peer).2.1 ∧
        (eventVerifyRemoteNode node peer).1.pendingConn =
          node.pendingConn.Delete peer.config.Id ∧
        (eventVerifyRemoteNode node peer).1.pendingConn.Load peer.config.Id = none ∧
        (eventVerifyRemoteNode node peer).1 =
          { node with
              remoteNodes := (eventVerifyRemoteNode node peer).1.remoteNodes
              pendingConn := (eventVerifyRemoteNode node peer).1.pendingConn })) ∧
    (∀ (κ : Type) (bc : BigCache κ) (config : ClusteredBigCacheConfig) (cache : κ)
        (events : List Event),
      ((run bc (New config cache) events).remoteNodes.Values.map
        (fun held => held.config.Id)).Nodup) := by
  refine ⟨fun κ node peer => ?_, fun κ bc config cache events => ?_⟩
  · cases hc : node.remoteNodes.Contains remoteNodeEqualFunc peer with
    | true =>
      rw [eventVerifyRemoteNode_refused node peer hc]
      refine ⟨?_, fun _ => ⟨rfl, rfl⟩, fun h => by simp at h⟩
      simpa using (SliceList.Contains_iff node.remoteNodes peer).1 hc
    | false =>
      have hnot : ¬ ∃ held ∈ node.remoteNodes.Values, held.config.Id = peer.config.Id := by
        rw [← SliceList.Contains_iff, hc]; simp
      rw [eventVerifyRemoteNode_added node peer hc]
      refine ⟨?_, fun h => by simp at h, fun _ => ⟨rfl, ?_, ?_, rfl, ?_, rfl⟩⟩
      · simpa using hnot
      · exact Values_appended _ _
      · simp [SliceList.Get, SliceList.Add]
      · simp [SyncMap.Load, SyncMap.Delete, List.find?_eq_none]
  · exact run_nodup bc events _ (by simp [New, SliceList.NewSliceList, SliceList.Values])

/-- Witness of `eventVerifyRemoteNode_deduplicates`: on a fresh coordinator the
peer `A` is admitted with index 0; once three peers are registered a second
connection of `B` is refused. -/
theorem eventVerifyRemoteNode_deduplicates_witness :
    (eventVerifyRemoteNode (sampleNode 2) (samplePeer "A")).2.1.indexInParent = 0 ∧
    (eventVerifyRemoteNode (sampleCluster 2) (samplePeer "B")).1.remoteNodes =
      (sampleCluster 2).remoteNodes := by
  have h := eventVerifyRemoteNode_deduplicates.1 MemCache
  refine ⟨?_, ?_⟩
  · have h1 := ((h (sampleNode 2) (samplePeer "A")).2.2 (by decide)).1
    rw [h1]; rfl
  · have h2 := ((h (sampleCluster 2) (samplePeer "B")).2.1 (by decide)).1
    rw [h2]

/-! ## Writes -/

/-- The store `memCache` returns what was last stored under a key. -/
theorem memCache_Get_Set (cache : MemCache) (key : String) (data : Bytes) (duration : Int)
    (h : data.length ≤ cache.maxEntrySize) :
    memCache.Get (memCache.Set cache key data duration).1 key = .ok data := by
  have h1 : ¬ cache.maxEntrySize < data.length := by omega
  simp [memCache, MemCache.Set, MemCache.Get, h1]

/-- Claim C1, as the code has it. With a replication factor above 1 and fewer
registered peers than the replication factor, `PutData` returns
`ErrNotEnoughReplica` before the local write: the coordinator, its local store
included, is unchanged, so the key reads from the local store exactly as it did
before the call. -/
theorem PutData_not_enough_replica (bc : BigCache κ) (node : ClusteredBigCache κ)
    (key : String) (data : Bytes) (duration : Int)
    (hR : 1 < node.config.ReplicationFactor)
    (hpeers : (node.remoteNodes.Size : Int) < node.config.ReplicationFactor) :
    PutData bc node key data duration = (node, .returned (some .ErrNotEnoughReplica)) ∧
    bc.Get (PutData bc node key data duration).1.cache key = bc.Get node.cache key := by
  have h1 : node.config.ReplicationFactor ≠ 1 := by omega
  have h : PutData bc node key data duration = (node, .returned (some .ErrNotEnoughReplica)) := by
    simp [PutData, h1, hpeers]
  exact ⟨h, by rw [h]⟩

/-- Witness of `PutData_not_enough_replica`: replication factor 2, no peer. -/
theorem PutData_not_enough_replica_witness :
    PutData memCache (sampleNode 2) "k" [1] 60 =
      (sampleNode 2, .returned (some .ErrNotEnoughReplica)) :=
  (PutData_not_enough_replica memCache (sampleNode 2) "k" [1] 60 (by decide) (by decide)).1

/-- Claim C1 as stated fails: with replication factor 2, no registered peer and
an empty local store (one that does return what is stored in it), `PutData`
returns `ErrNotEnoughReplica` and the key is not in the local store afterwards. -/
theorem PutData_not_enough_replica_no_local_write :
    1 < (sampleNode 2).config.ReplicationFactor ∧
    ((sampleNode 2).remoteNodes.Size : Int) < (sampleNode 2).config.ReplicationFactor ∧
    memCache.Get (memCache.Set (sampleNode 2).cache "k" [1] 60).1 "k" = .ok [1] ∧
    (PutData memCache (sampleNode 2) "k" [1] 60).2 = .returned (some .ErrNotEnoughReplica) ∧
    memCache.Get (PutData memCache (sampleNode 2) "k" [1] 60).1.cache "k" =
      .error (.other "Entry not found") ∧
    ¬ ((PutData memCache (sampleNode 2) "k" [1] 60).2 = .returned (some .ErrNotEnoughReplica) ∧
        memCache.Get (PutData memCache (sampleNode 2) "k" [1] 60).1.cache "k" = .ok [1]) := by
  refine ⟨by decide, by decide, rfl, rfl, rfl, ?_⟩
  rintro ⟨-, h⟩
  have h1 : memCache.Get (PutData memCache (sampleNode 2) "k" [1] 60).1.cache "k" =
      .error (.other "Entry not found") := rfl
  rw [h1] at h
  cases h

/-- Claim C4. With replication factor 1, whatever the registry and the cursor,
`PutData` does the local write and returns its result (nil or its error); no
message is sent, the cursor and everything but the local store are unchanged. -/
theorem PutData_replication_factor_one (bc : BigCache κ) (node : ClusteredBigCache κ)
    (key : String) (data : Bytes) (duration : Int)
    (hR : node.config.ReplicationFactor = 1) :
    (PutData bc node key data duration).2 =
      .returned (bc.Set node.cache key data duration).2.2 ∧
    (PutData bc node key data duration).1.cache = (bc.Set node.cache key data duration).1 ∧
    (PutData bc node key data duration).1.sent = node.sent ∧
    (PutData bc node key data duration).1.nodeIndex = node.nodeIndex ∧
    (PutData bc node key data duration).1 =
      { node with cache := (bc.Set node.cache key data duration).1 } := by
  simp [PutData, hR]

/-- Witness of `PutData_replication_factor_one`: three registered peers,
replication factor 1: the write is stored and nothing is sent. -/
theorem PutData_replication_factor_one_witness :
    (PutData memCache (sampleCluster 1) "k" [1] 60).2 = .returned none ∧
    (PutData memCache (sampleCluster 1) "k" [1] 60).1.sent = [] := by
  have h := PutData_replication_factor_one memCache (sampleCluster 1) "k" [1] 60 (by decide)
  exact ⟨h.1.trans rfl, h.2.2.1.trans rfl⟩

/-! ## Reads -/

/-- Claim C5. `GetData` reads the local store first: on a hit it returns the
local payload, without error, and the coordinator (its request queue included)
is unchanged. On a miss it appends to the request queue one entry per
registered peer, in registry order, all with the same request record (for this
key, on two fresh channels); when none of these entries is answered before the
timer fires, and so whenever no peer is registered, it returns `ErrNotFound`. -/
theorem GetData_local_then_cluster (bc : BigCache κ) (node : ClusteredBigCache κ)
    (key : String) (answer : getRequestDataWrapper → Option getReplyData) :
    (∀ data, bc.Get node.cache key = .ok data →
      GetData bc node key answer = (node, .ok data)) ∧
    (∀ err, bc.Get node.cache key = .error err →
      ∃ reqData : getRequestData,
        reqData.key = key ∧ reqData.replyChan = node.chans ∧ reqData.done = node.chans + 1 ∧
        (GetData bc node key answer).1.getRequestChan =
          node.getRequestChan ++
            node.remoteNodes.Values.map (fun peer => { r := peer, g := reqData }) ∧
        ((GetData bc node key answer).1.getRequestChan.length =
          node.getRequestChan.length + node.remoteNodes.Size) ∧
        ((∀ peer ∈ node.remoteNodes.Values, answer { r := peer, g := reqData } = none) →
          (GetData bc node key answer).2 = .error .ErrNotFound) ∧
        (node.remoteNodes.Size = 0 →
          (GetData bc node key answer).2 = .error .ErrNotFound)) := by
  refine ⟨fun data h => by simp [GetData, h], fun err h => ?_⟩
  refine ⟨{ key := key, replyChan := node.chans, done := node.chans + 1 }, rfl, rfl, rfl, ?_, ?_, ?_⟩
  · simp only [GetData, h, getRemoteNodes]
    split <;> rfl
  · simp only [GetData, h, getRemoteNodes]
    split <;> simp [SliceList.Size_eq_length_Values]
  · have key1 : ∀ (hnone : ∀ peer ∈ node.remoteNodes.Values,
        answer { r := peer, g := { key := key, replyChan := node.chans, done := node.chans + 1 } }
          = none), (GetData bc node key answer).2 = .error .ErrNotFound := by
      intro hnone
      have hfind : (List.map (fun peer => ({ r := peer, g :=
          { key := key, replyChan := node.chans, done := node.chans + 1 } } :
            getRequestDataWrapper)) node.remoteNodes.Values).findSome? answer = none := by
        rw [List.findSome?_eq_none_iff]
        intro w hw
        simp only [List.mem_map] at hw
        obtain ⟨peer, hpeer, rfl⟩ := hw
        exact hnone peer hpeer
      simp only [GetData, h, getRemoteNodes, hfind]
    refine ⟨key1, fun hsize => key1 ?_⟩
    have hnil : node.remoteNodes.Values = [] := by
      rw [SliceList.Size_eq_length_Values] at hsize
      exact List.length_eq_zero.mp hsize
    intro peer hpeer
    rw [hnil] at hpeer
    cases hpeer

/-- Witness of `GetData_local_then_cluster`: a key that is not in the local store,
three registered peers of which none answers. -/
theorem GetData_local_then_cluster_witness :
    (GetData memCache (sampleCluster 2) "k" (fun _ => none)).2 = .error .ErrNotFound ∧
    (GetData memCache (sampleCluster 2) "k" (fun _ => none)).1.getRequestChan.length = 3 := by
  obtain ⟨reqData, -, -, -, -, hlen, hnone, -⟩ :=
    (GetData_local_then_cluster memCache (sampleCluster 2) "k" (fun _ => none)).2
      (.other "Entry not found") rfl
  exact ⟨hnone (fun _ _ => rfl), hlen.trans (by decide)⟩

/-! ## Mesh discovery -/

theorem SyncMap.Load_isSome_iff (m : SyncMap) (key : String) :
    (m.Load key).isSome = true ↔ ∃ e ∈ m.entries, e.1 = key := by
  simp [SyncMap.Load, List.find?_isSome]

theorem SyncMap.Load_Store_self (m : SyncMap) (key value : String) :
    ((m.Store key value).Load key).isSome = true := by
  rw [SyncMap.Load_isSome_iff]
  exact ⟨(key, value), by simp [SyncMap.Store], rfl⟩

theorem SyncMap.Load_Store_mono (m : SyncMap) (key value other : String)
    (h : (m.Load other).isSome = true) : ((m.Store key value).Load other).isSome = true := by
  by_cases hk : other = key
  · rw [hk]; exact SyncMap.Load_Store_self m key value
  · rw [SyncMap.Load_isSome_iff] at h ⊢
    obtain ⟨e, he, rfl⟩ := h
    exact ⟨e, by simp [SyncMap.Store, he, hk], rfl⟩

theorem connectToExistingNode_skip (node : ClusteredBigCache κ) (value : ProposedPeer)
    (h : (node.pendingConn.Load value.Id).isSome = true ∨
      ∃ held ∈ node.remoteNodes.Values, held.config.Id = value.Id) :
    connectToExistingNode node value = node := by
  unfold connectToExistingNode
  rcases h with h | ⟨held, hmem, hid⟩
  · simp [h]
  · have hk : value.Id ∈ node.remoteNodes.Keys remoteNodeKeyFunc := by
      simp only [SliceList.Keys, List.mem_map, remoteNodeKeyFunc]
      exact ⟨held, hmem, hid⟩
    split
    · rfl
    · simp [hk]

theorem connectToExistingNode_connect (node : ClusteredBigCache κ) (value : ProposedPeer)
    (hpending : (node.pendingConn.Load value.Id).isSome = false)
    (hregistered : ¬ ∃ held ∈ node.remoteNodes.Values, held.config.Id = value.Id) :
    connectToExistingNode node value =
      { node with
          joined := node.joined ++ [newRemoteNode
            { IpAddress := value.IpAddress, ConnectRetries := node.config.ConnectRetries,
              Id := value.Id, Sync := false }]
          pendingConn := node.pendingConn.Store value.Id value.IpAddress } := by
  have hk : value.Id ∉ node.remoteNodes.Keys remoteNodeKeyFunc := by
    simp only [SliceList.Keys, List.mem_map, remoteNodeKeyFunc]
    exact hregistered
  simp [connectToExistingNode, hpending, hk]

theorem connectToExistingNode_pending_mono (node : ClusteredBigCache κ) (value : ProposedPeer)
    (key : String) (h : (node.pendingConn.Load key).isSome = true) :
    ((connectToExistingNode node value).pendingConn.Load key).isSome = true := by
  by_cases hs : (node.pendingConn.Load value.Id).isSome = true ∨
      ∃ held ∈ node.remoteNodes.Values, held.config.Id = value.Id
  · rw [connectToExistingNode_skip node value hs]; exact h
  · rw [not_or] at hs
    rw [connectToExistingNode_connect node value (by simpa using hs.1) hs.2]
    exact SyncMap.Load_Store_mono _ _ _ _ h

theorem connectToExistingNodes_pending_mono (queue : List ProposedPeer)
    (node : ClusteredBigCache κ) (key : String) (h : (node.pendingConn.Load key).isSome = true) :
    ((connectToExistingNodes node queue).pendingConn.Load key).isSome = true := by
  induction queue generalizing node with
  | nil => exact h
  | cons value rest ih =>
    exact ih _ (connectToExistingNode_pending_mono node value key h)

/-- The connection attempts made over a queue of announcements: at most one per
identity, none for an identity that was pending or registered. -/
theorem connectToExistingNodes_attempts (queue : List ProposedPeer)
    (node : ClusteredBigCache κ) :
    ∃ attempts : List remoteNode,
      (connectToExistingNodes node queue).joined = node.joined ++ attempts ∧
      (connectToExistingNodes node queue).remoteNodes = node.remoteNodes ∧
      (attempts.map (fun peer => peer.config.Id)).Nodup ∧
      ∀ peer ∈ attempts,
        (node.pendingConn.Load peer.config.Id).isSome = false ∧
        (¬ ∃ held ∈ node.remoteNodes.Values, held.config.Id = peer.config.Id) ∧
        (∃ value ∈ queue, peer.config.Id = value.Id ∧ peer.config.IpAddress = value.IpAddress ∧
          peer.state = .nodeStateConnecting) ∧
        ((connectToExistingNodes node queue).pendingConn.Load peer.config.Id).isSome = true := by
  induction queue generalizing node with
  | nil => exact ⟨[], by simp [connectToExistingNodes], rfl, List.nodup_nil, by simp⟩
  | cons value rest ih =>
    obtain ⟨attempts, hjoined, hreg, hnodup, hall⟩ := ih (connectToExistingNode node value)
    simp only [connectToExistingNodes]
    by_cases hs : (node.pendingConn.Load value.Id).isSome = true ∨
        ∃ held ∈ node.remoteNodes.Values, held.config.Id = value.Id
    · rw [connectToExistingNode_skip node value hs] at hjoined hreg hall ⊢
      refine ⟨attempts, hjoined, hreg, hnodup, fun peer hpeer => ?_⟩
      obtain ⟨h1, h2, ⟨v, hv, h3⟩, h4⟩ := hall peer hpeer
      exact ⟨h1, h2, ⟨v, List.mem_cons_of_mem _ hv, h3⟩, h4⟩
    · rw [not_or] at hs
      have hstep := connectToExistingNode_connect node value (by simpa using hs.1) hs.2
      have hself : ((connectToExistingNode node value).pendingConn.Load value.Id).isSome = true := by
        rw [hstep]; exact SyncMap.Load_Store_self _ _ _
      refine ⟨newRemoteNode
          { IpAddress := value.IpAddress, ConnectRetries := node.config.ConnectRetries,
            Id := value.Id, Sync := false } :: attempts, ?_, ?_, ?_, ?_⟩
      · rw [hjoined, hstep]; simp
      · rw [hreg, connectToExistingNode_remoteNodes]
      · simp only [List.map_cons, List.nodup_cons]
        refine ⟨?_, hnodup⟩
        intro hmem
        simp only [List.mem_map] at hmem
        obtain ⟨peer, hpeer, hid⟩ := hmem
        have h1 := (hall peer hpeer).1
        have hid1 : peer.config.Id = value.Id := by simpa [newRemoteNode] using hid
        rw [hid1, hself] at h1
        cases h1
      · intro peer hpeer
        rcases List.mem_cons.mp hpeer with rfl | hpeer
        · refine ⟨by simpa [newRemoteNode] using hs.1, by simpa [newRemoteNode] using hs.2,
            ⟨value, List.mem_cons_self _ _, rfl, rfl, rfl⟩, ?_⟩
          exact connectToExistingNodes_pending_mono rest _ _ hself
        · obtain ⟨h1, h2, ⟨v, hv, h3⟩, h4⟩ := hall peer hpeer
          refine ⟨?_, ?_, ⟨v, List.mem_cons_of_mem _ hv, h3⟩, h4⟩
          · cases hp : (node.pendingConn.Load peer.config.Id).isSome with
            | false => rfl
            | true =>
              rw [connectToExistingNode_pending_mono node value _ hp] at h1
              cases h1
          · rw [connectToExistingNode_remoteNodes] at h2
            exact h2

theorem SyncMap.Load_Store_iff (m : SyncMap) (key value other : String) :
    ((m.Store key value).Load other).isSome = true ↔
      other = key ∨ (m.Load other).isSome = true := by
  constructor
  · intro h
    by_cases hk : other = key
    · exact Or.inl hk
    · right
      rw [SyncMap.Load_isSome_iff] at h ⊢
      obtain ⟨e, he, rfl⟩ := h
      simp only [SyncMap.Store, List.mem_append, List.mem_filter, List.mem_singleton] at he
      rcases he with he | he
      · exact ⟨e, he.1, rfl⟩
      · exact absurd (by rw [he]) hk
  · rintro (h | h)
    · rw [h]; exact SyncMap.Load_Store_self m key value
    · exact SyncMap.Load_Store_mono m key value other h

theorem mem_knownIds (node : ClusteredBigCache κ) (id : String) :
    id ∈ knownIds node ↔
      ((node.pendingConn.Load id).isSome = true ∨
        ∃ held ∈ node.remoteNodes.Values, held.config.Id = id) := by
  simp only [knownIds, List.mem_append, SyncMap.Load_isSome_iff, SliceList.Keys, List.mem_map,
    remoteNodeKeyFunc]

/-- The loop of `connectToExistingNodes` handles the last value received on the
state left by the values before it. -/
theorem connectToExistingNodes_append (queue : List ProposedPeer) (value : ProposedPeer)
    (node : ClusteredBigCache κ) :
    connectToExistingNodes node (queue ++ [value]) =
      connectToExistingNode (connectToExistingNodes node queue) value := by
  induction queue generalizing node with
  | nil => rfl
  | cons head rest ih => exact ih _

/-- The whole effect of `connectToExistingNodes` on a queue, for any list `known`
that holds exactly the pending and the registered identities. -/
theorem connectToExistingNodes_closed (queue : List ProposedPeer) :
    ∀ (node : ClusteredBigCache κ) (known : List String),
      (∀ id, id ∈ known ↔
        ((node.pendingConn.Load id).isSome = true ∨
          ∃ held ∈ node.remoteNodes.Values, held.config.Id = id)) →
      connectToExistingNodes node queue =
        { node with
            joined := (node.joined ++ (announcedUnknown known queue).map (fun value =>
              newRemoteNode
                { IpAddress := value.IpAddress, ConnectRetries := node.config.ConnectRetries,
                  Id := value.Id, Sync := false }))
            pendingConn := ((announcedUnknown known queue).foldl
              (fun m value => m.Store value.Id value.IpAddress) node.pendingConn) } := by
  induction queue with
  | nil =>
    intro node known _
    simp [connectToExistingNodes, announcedUnknown]
  | cons value rest ih =>
    intro node known hknown
    simp only [connectToExistingNodes, announcedUnknown]
    by_cases hk : value.Id ∈ known
    · rw [if_pos hk, connectToExistingNode_skip node value ((hknown _).1 hk)]
      exact ih node known hknown
    · rw [if_neg hk]
      have hnot := mt (hknown value.Id).2 hk
      rw [not_or] at hnot
      have hstep := connectToExistingNode_connect node value (by simpa using hnot.1) hnot.2
      rw [hstep]
      rw [ih _ (value.Id :: known) (fun id => by
        simp only [List.mem_cons, SyncMap.Load_Store_iff, hknown id]
        tauto)]
      simp

/-- Every identity announced is pending or registered once the queue is handled. -/
theorem connectToExistingNodes_covers (queue : List ProposedPeer) :
    ∀ (node : ClusteredBigCache κ), ∀ value ∈ queue,
      ((connectToExistingNodes node queue).pendingConn.Load value.Id).isSome = true ∨
        ∃ held ∈ (connectToExistingNodes node queue).remoteNodes.Values,
          held.config.Id = value.Id := by
  induction queue with
  | nil => intro node value h; cases h
  | cons head rest ih =>
    intro node value hvalue
    simp only [connectToExistingNodes]
    rcases List.mem_cons.mp hvalue with rfl | hrest
    · have hreg : (connectToExistingNodes (connectToExistingNode node value) rest).remoteNodes =
          node.remoteNodes := by
        obtain ⟨_, -, h, -⟩ := connectToExistingNodes_attempts rest (connectToExistingNode node value)
        rw [h, connectToExistingNode_remoteNodes]
      by_cases hs : (node.pendingConn.Load value.Id).isSome = true ∨
          ∃ held ∈ node.remoteNodes.Values, held.config.Id = value.Id
      · rcases hs with hp | hr
        · exact Or.inl (connectToExistingNodes_pending_mono rest _ _
            (connectToExistingNode_pending_mono node value _ hp))
        · right
          rw [hreg]
          exact hr
      · rw [not_or] at hs
        left
        refine connectToExistingNodes_pending_mono rest _ _ ?_
        rw [connectToExistingNode_connect node value (by simpa using hs.1) hs.2]
        exact SyncMap.Load_Store_self _ _ _
    · exact ih _ value hrest

/-- Claim C7. Mesh discovery handles a value received from `joinQueue` so: when
its identity is pending, or is that of a registered peer, nothing changes (no
connection, same tracker); otherwise one outbound peer connection is made and
joined, and the identity is marked pending. The loop handles every value, in
arrival order, each on the state left by those before it. Over any queue of
announcements the connection attempts are those of `announcedUnknown`: one for
the first announcement of each identity that was neither pending nor
registered, in arrival order; they have pairwise distinct identities, every
announced identity ends up pending or registered, and two announcements of the
same unknown peer give one attempt. -/
theorem connectToExistingNodes_deduplicates :
    (∀ (κ : Type) (node : ClusteredBigCache κ) (value : ProposedPeer),
      (((node.pendingConn.Load value.Id).isSome = true ∨
          ∃ held ∈ node.remoteNodes.Values, held.config.Id = value.Id) →
        connectToExistingNode node value = node) ∧
      ((node.pendingConn.Load value.Id).isSome = false →
        (¬ ∃ held ∈ node.remoteNodes.Values, held.config.Id = value.Id) →
        (connectToExistingNode node value).joined =
          node.joined ++ [newRemoteNode
            { IpAddress := value.IpAddress, ConnectRetries := node.config.ConnectRetries,
              Id := value.Id, Sync := false }] ∧
        (connectToExistingNode node value).pendingConn =
          node.pendingConn.Store value.Id value.IpAddress ∧
        ((connectToExistingNode node value).pendingConn.Load value.Id).isSome = true ∧
        connectToExistingNode node value =
          { node with
              joined := (connectToExistingNode node value).joined
              pendingConn := (connectToExistingNode node value).pendingConn })) ∧
    (∀ (κ : Type) (node : ClusteredBigCache κ) (queue : List ProposedPeer),
      ∃ attempts : List remoteNode,
        (connectToExistingNodes node queue).joined = node.joined ++ attempts ∧
        (attempts.map (fun peer => peer.config.Id)).Nodup ∧
        ∀ peer ∈ attempts,
          (node.pendingConn.Load peer.config.Id).isSome = false ∧
          (¬ ∃ held ∈ node.remoteNodes.Values, held.config.Id = peer.config.Id) ∧
          (∃ value ∈ queue, peer.config.Id = value.Id ∧
            peer.config.IpAddress = value.IpAddress ∧ peer.state = .nodeStateConnecting) ∧
          ((connectToExistingNodes node queue).pendingConn.Load peer.config.Id).isSome = true) ∧
    (∀ (κ : Type) (node : ClusteredBigCache κ) (value : ProposedPeer),
      (node.pendingConn.Load value.Id).isSome = false →
      (¬ ∃ held ∈ node.remoteNodes.Values, held.config.Id = value.Id) →
      (connectToExistingNodes node [value, value]).joined =
        node.joined ++ [newRemoteNode
          { IpAddress := value.IpAddress, ConnectRetries := node.config.ConnectRetries,
            Id := value.Id, Sync := false }]) ∧
    (∀ (κ : Type) (node : ClusteredBigCache κ) (queue : List ProposedPeer)
        (value : ProposedPeer),
      connectToExistingNodes node [] = node ∧
      connectToExistingNodes node (value :: queue) =
        connectToExistingNodes (connectToExistingNode node value) queue ∧
      connectToExistingNodes node (queue ++ [value]) =
        connectToExistingNode (connectToExistingNodes node queue) value) ∧
    (∀ (κ : Type) (node : ClusteredBigCache κ) (queue : List ProposedPeer),
      connectToExistingNodes node queue =
        { node with
            joined := (node.joined ++ (announcedUnknown (knownIds node) queue).map (fun value =>
              newRemoteNode
                { IpAddress := value.IpAddress, ConnectRetries := node.config.ConnectRetries,
                  Id := value.Id, Sync := false }))
            pendingConn := ((announcedUnknown (knownIds node) queue).foldl
              (fun m value => m.Store value.Id value.IpAddress) node.pendingConn) } ∧
      ∀ value ∈ queue,
        ((connectToExistingNodes node queue).pendingConn.Load value.Id).isSome = true ∨
          ∃ held ∈ node.remoteNodes.Values, held.config.Id = value.Id) := by
  refine ⟨fun κ node value => ⟨connectToExistingNode_skip node value, fun hp hr => ?_⟩,
    fun κ node queue => ?_, fun κ node value hp hr => ?_,
    fun κ node queue value => ⟨rfl, rfl, connectToExistingNodes_append queue value node⟩,
    fun κ node queue => ⟨connectToExistingNodes_closed queue node (knownIds node)
      (mem_knownIds node), fun value hvalue => ?_⟩⟩
  · rw [connectToExistingNode_connect node value hp hr]
    exact ⟨rfl, rfl, SyncMap.Load_Store_self _ _ _, rfl⟩
  · obtain ⟨attempts, h1, -, h2, h3⟩ := connectToExistingNodes_attempts queue node
    exact ⟨attempts, h1, h2, h3⟩
  · have hstep := connectToExistingNode_connect node value hp hr
    have hself : ((connectToExistingNode node value).pendingConn.Load value.Id).isSome = true := by
      rw [hstep]; exact SyncMap.Load_Store_self _ _ _
    simp only [connectToExistingNodes]
    rw [connectToExistingNode_skip _ value (Or.inl hself), hstep]
  · have hreg : (connectToExistingNodes node queue).remoteNodes = node.remoteNodes := by
      obtain ⟨_, -, h, -⟩ := connectToExistingNodes_attempts queue node
      exact h
    have h := connectToExistingNodes_covers queue node value hvalue
    rw [hreg] at h
    exact h

/-- Witness of `connectToExistingNodes_deduplicates`: a coordinator with the
registered peers `A`, `B`, `C` receives the announcements `D`, `D`, `E`, `B`:
it dials `D` once, then `E`; the registered peer `B` is not dialled. -/
theorem connectToExistingNodes_deduplicates_witness :
    ((connectToExistingNodes (sampleCluster 2)
        [{ Id := "D", IpAddress := "10.0.0.4:9911" },
         { Id := "D", IpAddress := "10.0.0.4:9911" },
         { Id := "E", IpAddress := "10.0.0.5:9911" },
         { Id := "B", IpAddress := "10.0.0.2:9911" }]).joined.map
      (fun peer => peer.config.Id)) = ["D", "E"] ∧
    (connectToExistingNodes (sampleCluster 2)
        [{ Id := "D", IpAddress := "10.0.0.4:9911" },
         { Id := "D", IpAddress := "10.0.0.4:9911" }]).joined.map
      (fun peer => peer.config.Id) = ["D"] ∧
    connectToExistingNode (sampleCluster 2) { Id := "B", IpAddress := "10.0.0.2:9911" } =
      sampleCluster 2 := by
  refine ⟨?_, ?_, ?_⟩
  · rw [(connectToExistingNodes_deduplicates.2.2.2.2 MemCache (sampleCluster 2)
      [{ Id := "D", IpAddress := "10.0.0.4:9911" },
       { Id := "D", IpAddress := "10.0.0.4:9911" },
       { Id := "E", IpAddress := "10.0.0.5:9911" },
       { Id := "B", IpAddress := "10.0.0.2:9911" }]).1]
    decide
  · rw [connectToExistingNodes_deduplicates.2.2.1 MemCache (sampleCluster 2)
      { Id := "D", IpAddress := "10.0.0.4:9911" } (by decide) (by decide)]
    rfl
  · exact (connectToExistingNodes_deduplicates.1 MemCache (sampleCluster 2)
      { Id := "B", IpAddress := "10.0.0.2:9911" }).1 (Or.inr (by decide))

/-! ## The listener -/

theorem errRun_append_singleton (accepts : List AcceptResult) (x : AcceptResult) :
    errRun (accepts ++ [x]) = if x.isErr = true then errRun accepts + 1 else 0 := by
  simp only [errRun, List.reverse_append, List.reverse_cons, List.reverse_nil, List.nil_append,
    List.singleton_append, List.takeWhile_cons]
  split <;> simp

theorem AcceptResult.isErr_iff (x : AcceptResult) : x.isErr = true ↔ ∃ msg, x = .err msg := by
  cases x <;> simp [AcceptResult.isErr]

/-- The last `m` accepts all failed exactly when the run of failures at the end
is at least `m` long. -/
theorem le_errRun_iff (accepts : List AcceptResult) (m : Nat) :
    m ≤ errRun accepts ↔
      m ≤ accepts.length ∧
        ∀ i, accepts.length - m ≤ i → i < accepts.length →
          ∃ msg, accepts.get? i = some (.err msg) := by
  induction accepts using List.reverseRecOn generalizing m with
  | nil => simp [errRun]
  | append_singleton init x ih =>
    rw [errRun_append_singleton]
    cases m with
    | zero =>
      simp only [Nat.zero_le, true_and, true_iff, Nat.sub_zero]
      intro i h1 h2
      omega
    | succ m =>
      by_cases hx : x.isErr = true
      · obtain ⟨msg, rfl⟩ := (AcceptResult.isErr_iff x).1 hx
        simp only [hx, if_true, Nat.add_le_add_iff_right, List.length_append,
          List.length_singleton]
        rw [ih m]
        constructor
        · rintro ⟨hlen, hall⟩
          refine ⟨hlen, fun i h1 h2 => ?_⟩
          by_cases hi : i < init.length
          · obtain ⟨msg1, h⟩ := hall i (by omega) hi
            refine ⟨msg1, ?_⟩
            rw [List.get?_eq_getElem?, List.getElem?_append_left hi, ← List.get?_eq_getElem?, h]
          · have hi1 : i = init.length := by omega
            subst hi1
            exact ⟨msg, by simp⟩
        · rintro ⟨hlen, hall⟩
          refine ⟨hlen, fun i h1 h2 => ?_⟩
          obtain ⟨msg1, h⟩ := hall i (by omega) (by omega)
          refine ⟨msg1, ?_⟩
          rw [List.get?_eq_getElem?, List.getElem?_append_left h2, ← List.get?_eq_getElem?] at h
          exact h
      · simp only [hx]
        constructor
        · intro h
          simp at h
        · rintro ⟨hlen, hall⟩
          exfalso
          obtain ⟨msg1, h⟩ := hall init.length
            (by simp only [List.length_append, List.length_singleton]; omega)
            (by simp)
          simp at h
          rw [h] at hx
          exact hx rfl

theorem spawned_append (connectRetries : Int) (l1 l2 : List AcceptResult) :
    spawned connectRetries (l1 ++ l2) = spawned connectRetries l1 ++ spawned connectRetries l2 := by
  induction l1 with
  | nil => rfl
  | cons x rest ih => cases x <;> simp [spawned, ih]

/-- The loop invariant of `listen`: after the accepts `done` (none of which
tripped the breaker) have been handled, the counter is the run of failures at
the end of `done`; the loop run on over `rest` is described on `done ++ rest`. -/
theorem listenLoop_spec (rest : List AcceptResult) :
    ∀ (node : ClusteredBigCache κ) (done : List AcceptResult), errRun done < 5 →
      (listenLoop node (errRun done) done.length rest).node =
        { node with
            started := (node.started ++ spawned node.config.ConnectRetries
              (rest.take
                ((listenLoop node (errRun done) done.length rest).accepted - done.length))) } ∧
      done.length ≤ (listenLoop node (errRun done) done.length rest).accepted ∧
      (listenLoop node (errRun done) done.length rest).accepted ≤ done.length + rest.length ∧
      (∀ k, done.length < k → k < (listenLoop node (errRun done) done.length rest).accepted →
        errRun ((done ++ rest).take k) < 5) ∧
      ((listenLoop node (errRun done) done.length rest).status.stopped = false →
        (listenLoop node (errRun done) done.length rest).accepted = done.length + rest.length ∧
        (listenLoop node (errRun done) done.length rest).status =
          .accepting (errRun (done ++ rest)) ∧
        errRun (done ++ rest) < 5) ∧
      ((listenLoop node (errRun done) done.length rest).status.stopped = true →
        done.length < (listenLoop node (errRun done) done.length rest).accepted ∧
        errRun ((done ++ rest).take (listenLoop node (errRun done) done.length rest).accepted)
          = 5 ∧
        (listenLoop node (errRun done) done.length rest).status =
          if node.config.TerminateOnListenerExit = true then
            .panicked "listening loop terminated unexpectedly due to too many errors"
          else .exited) := by
  induction rest with
  | nil =>
    intro node done hdone
    simp only [listenLoop, ListenStatus.stopped, Nat.sub_self, List.take_zero, spawned,
      List.append_nil, Nat.le_refl, Nat.add_zero, true_and, forall_true_left, hdone, and_true,
      List.length_nil]
    refine ⟨fun k h1 h2 => by omega, fun h => by simp at h⟩
  | cons x rest ih =>
    intro node done hdone
    have hassoc : done ++ x :: rest = (done ++ [x]) ++ rest := by simp
    have hlen : (done ++ [x]).length = done.length + 1 := by simp
    cases x with
    | err msg =>
      have hrun : errRun (done ++ [.err msg]) = errRun done + 1 := by
        rw [errRun_append_singleton]; simp [AcceptResult.isErr]
      by_cases hfive : errRun done + 1 ≥ 5
      · have heq : errRun done + 1 = 5 := by omega
        have htake : (done ++ AcceptResult.err msg :: rest).take (done.length + 1) =
            done ++ [.err msg] := by
          rw [hassoc, ← hlen, List.take_left]
        simp only [listenLoop, hfive, if_true]
        refine ⟨by simp [spawned], by omega, by simp, fun k h1 h2 => by omega, ?_, ?_⟩
        · intro h
          split at h <;> simp [ListenStatus.stopped] at h
        · intro _
          refine ⟨by omega, ?_, ?_⟩
          · rw [htake, hrun, heq]
          · first
              | rfl
              | trivial
      · have hlt : errRun (done ++ [.err msg]) < 5 := by omega
        obtain ⟨h1, h2, h3, h4, h5, h6⟩ := ih node (done ++ [.err msg]) hlt
        rw [hrun, hlen] at h1 h2 h3 h4 h5 h6
        simp only [listenLoop, hfive, if_false]
        rw [hassoc]
        refine ⟨?_, by omega, by simp only [List.length_cons]; omega, ?_, ?_, ?_⟩
        · rw [h1]
          have hsub : (listenLoop node (errRun done + 1) (done.length + 1) rest).accepted
              - done.length =
              ((listenLoop node (errRun done + 1) (done.length + 1) rest).accepted
                - (done.length + 1)) + 1 := by omega
          rw [hsub, List.take_succ_cons]
          simp [spawned]
        · intro k hk1 hk2
          by_cases hk : k = done.length + 1
          · rw [hk, ← hlen, List.take_left]; exact hlt
          · exact h4 k (by omega) hk2
        · intro hs
          obtain ⟨a, b, c⟩ := h5 hs
          exact ⟨by simp only [List.length_cons]; omega, b, c⟩
        · intro hs
          obtain ⟨a, b, c⟩ := h6 hs
          exact ⟨by omega, b, c⟩
    | conn remoteAddr =>
      have hrun : errRun (done ++ [.conn remoteAddr]) = 0 := by
        rw [errRun_append_singleton]; simp [AcceptResult.isErr]
      have hlt : errRun (done ++ [.conn remoteAddr]) < 5 := by omega
      obtain ⟨h1, h2, h3, h4, h5, h6⟩ :=
        ih { node with started := node.started ++
              [inboundPeer node.config.ConnectRetries remoteAddr] }
          (done ++ [.conn remoteAddr]) hlt
      rw [hrun, hlen] at h1 h2 h3 h4 h5 h6
      simp only [listenLoop]
      rw [hassoc]
      refine ⟨?_, by omega, by simp only [List.length_cons]; omega, ?_, ?_, ?_⟩
      · rw [h1]
        have hsub : (listenLoop { node with started := node.started ++
              [inboundPeer node.config.ConnectRetries remoteAddr] } 0
              (done.length + 1) rest).accepted - done.length =
            ((listenLoop { node with started := node.started ++
              [inboundPeer node.config.ConnectRetries remoteAddr] } 0
              (done.length + 1) rest).accepted - (done.length + 1)) + 1 := by omega
        rw [hsub, List.take_succ_cons]
        simp [spawned]
      · intro k hk1 hk2
        by_cases hk : k = done.length + 1
        · rw [hk, ← hlen, List.take_left]; exact hlt
        · exact h4 k (by omega) hk2
      · intro hs
        obtain ⟨a, b, c⟩ := h5 hs
        exact ⟨by simp only [List.length_cons]; omega, b, c⟩
      · intro hs
        obtain ⟨a, b, c⟩ := h6 hs
        exact ⟨by omega, b, c⟩

theorem fiveFailedAt_iff (accepts : List AcceptResult) (k : Nat) (hk : k ≤ accepts.length) :
    fiveFailedAt accepts k ↔ 5 ≤ errRun (accepts.take k) := by
  have hlen : (accepts.take k).length = k := by simp [hk]
  rw [le_errRun_iff, hlen]
  unfold fiveFailedAt
  constructor
  · rintro ⟨h5, -, hall⟩
    refine ⟨h5, fun i h1 h2 => ?_⟩
    obtain ⟨msg, h⟩ := hall i h1 h2
    exact ⟨msg, by rw [List.get?_eq_getElem?, List.getElem?_take, if_pos h2, ← List.get?_eq_getElem?, h]⟩
  · rintro ⟨h5, hall⟩
    refine ⟨h5, hk, fun i h1 h2 => ?_⟩
    obtain ⟨msg, h⟩ := hall i h1 h2
    rw [List.get?_eq_getElem?, List.getElem?_take, if_pos h2, ← List.get?_eq_getElem?] at h
    exact ⟨msg, h⟩

theorem spawned_state (connectRetries : Int) (accepts : List AcceptResult) :
    ∀ peer ∈ spawned connectRetries accepts,
      peer.state = .nodeStateHandshake ∧ peer.indexInParent = -1 ∧
      ∃ remoteAddr, .conn remoteAddr ∈ accepts ∧ peer.connection = some remoteAddr ∧
        peer.config.IpAddress = remoteAddr := by
  induction accepts with
  | nil => simp [spawned]
  | cons x rest ih =>
    intro peer hpeer
    cases x with
    | err msg =>
      obtain ⟨h1, h2, addr, h3, h4⟩ := ih peer (by simpa [spawned] using hpeer)
      exact ⟨h1, h2, addr, List.mem_cons_of_mem _ h3, h4⟩
    | conn remoteAddr =>
      simp only [spawned, List.mem_cons] at hpeer
      rcases hpeer with rfl | hpeer
      · exact ⟨rfl, rfl, remoteAddr, List.mem_cons_self _ _, rfl, rfl⟩
      · obtain ⟨h1, h2, addr, h3, h4⟩ := ih peer hpeer
        exact ⟨h1, h2, addr, List.mem_cons_of_mem _ h3, h4⟩

theorem spawned_length (connectRetries : Int) (accepts : List AcceptResult) :
    (spawned connectRetries accepts).length = accepts.countP (fun x => !x.isErr) := by
  induction accepts with
  | nil => rfl
  | cons x rest ih => cases x <;> simp [spawned, AcceptResult.isErr, ih]

/-- Claim C9. The accept loop of `listen`, over any sequence of accept
outcomes: it is left exactly when five consecutive accepts have failed
somewhere in the sequence, and then at the first such point; as long as it is
not left it has handled every accept and its counter is the run of failures at
the end (0 after a successful accept); every successful accept handled gave
one inbound peer connection in the `Handshake` state; once the loop is left
`listen` panics when `TerminateOnListenerExit` is set and returns otherwise. -/
theorem listen_circuit_breaker (node : ClusteredBigCache κ) (accepts : List AcceptResult) :
    ((listen node accepts).status.stopped = true ↔ ∃ k, fiveFailedAt accepts k) ∧
    ((listen node accepts).status.stopped = true →
      fiveFailedAt accepts (listen node accepts).accepted ∧
      ∀ j, j < (listen node accepts).accepted → ¬ fiveFailedAt accepts j) ∧
    ((listen node accepts).status.stopped = false →
      (listen node accepts).accepted = accepts.length ∧
      (listen node accepts).status = .accepting (errRun accepts) ∧
      errRun accepts < 5 ∧
      ∀ remoteAddr, (listen node (accepts ++ [.conn remoteAddr])).status = .accepting 0) ∧
    (listen node accepts).node =
      { node with
          started := (node.started ++ spawned node.config.ConnectRetries
            (accepts.take (listen node accepts).accepted)) } ∧
    (∀ peer ∈ spawned node.config.ConnectRetries (accepts.take (listen node accepts).accepted),
      peer.state = .nodeStateHandshake) ∧
    (spawned node.config.ConnectRetries (accepts.take (listen node accepts).accepted)).length =
      (accepts.take (listen node accepts).accepted).countP (fun x => !x.isErr) ∧
    ((listen node accepts).status.stopped = true →
      ((listen node accepts).status =
          .panicked "listening loop terminated unexpectedly due to too many errors" ↔
        node.config.TerminateOnListenerExit = true) ∧
      ((listen node accepts).status = .exited ↔
        node.config.TerminateOnListenerExit = false)) := by
  have hspec : ∀ (l : List AcceptResult),
      (listen node l).node =
        { node with
            started := (node.started ++ spawned node.config.ConnectRetries
              (l.take (listen node l).accepted)) } ∧
      (listen node l).accepted ≤ l.length ∧
      (∀ k, 0 < k → k < (listen node l).accepted → errRun (l.take k) < 5) ∧
      ((listen node l).status.stopped = false →
        (listen node l).accepted = l.length ∧
        (listen node l).status = .accepting (errRun l) ∧ errRun l < 5) ∧
      ((listen node l).status.stopped = true →
        0 < (listen node l).accepted ∧
        errRun (l.take (listen node l).accepted) = 5 ∧
        (listen node l).status =
          if node.config.TerminateOnListenerExit = true then
            .panicked "listening loop terminated unexpectedly due to too many errors"
          else .exited) := by
    intro l
    have h := listenLoop_spec l node [] (by simp [errRun])
    have h0 : errRun [] = 0 := by simp [errRun]
    simp only [h0, List.length_nil, Nat.sub_zero, List.nil_append, Nat.zero_add, Nat.zero_le,
      true_and] at h
    exact h
  have hno : ∀ (l : List AcceptResult), (listen node l).status.stopped = false →
      ∀ k, ¬ fiveFailedAt l k := by
    intro l hs k hk
    obtain ⟨-, -, h3, h4, -⟩ := hspec l
    obtain ⟨hacc, -, hlt⟩ := h4 hs
    have hk5 := hk.1
    have hkl := hk.2.1
    have h5 := (fiveFailedAt_iff l k hkl).1 hk
    by_cases hkeq : k = l.length
    · rw [hkeq, List.take_length] at h5
      omega
    · have := h3 k (by omega) (by omega)
      omega
  obtain ⟨h1, h2, h3, h4, h5⟩ := hspec accepts
  have hstop : (listen node accepts).status.stopped = true →
      fiveFailedAt accepts (listen node accepts).accepted ∧
      ∀ j, j < (listen node accepts).accepted → ¬ fiveFailedAt accepts j := by
    intro hs
    obtain ⟨hpos, hrun, -⟩ := h5 hs
    refine ⟨(fiveFailedAt_iff accepts _ h2).2 (by omega), fun j hj hjw => ?_⟩
    have := (fiveFailedAt_iff accepts j hjw.2.1).1 hjw
    have := h3 j (by have := hjw.1; omega) hj
    omega
  refine ⟨⟨fun hs => ⟨_, (hstop hs).1⟩, fun ⟨k, hk⟩ => ?_⟩, hstop, fun hs => ?_, h1,
    fun peer hpeer => (spawned_state _ _ peer hpeer).1, spawned_length _ _, fun hs => ?_⟩
  · cases hst : (listen node accepts).status.stopped with
    | true => rfl
    | false => exact absurd hk (hno accepts hst k)
  · obtain ⟨a, b, c⟩ := h4 hs
    refine ⟨a, b, c, fun remoteAddr => ?_⟩
    have hrun0 : errRun (accepts ++ [.conn remoteAddr]) = 0 := by
      rw [errRun_append_singleton]; simp [AcceptResult.isErr]
    cases hst : (listen node (accepts ++ [.conn remoteAddr])).status.stopped with
    | false =>
      obtain ⟨-, -, -, h4x, -⟩ := hspec (accepts ++ [.conn remoteAddr])
      rw [(h4x hst).2.1, hrun0]
    | true =>
      exfalso
      obtain ⟨-, h2x, -, -, h5x⟩ := hspec (accepts ++ [.conn remoteAddr])
      obtain ⟨hpos, hrun, -⟩ := h5x hst
      by_cases hfull : (listen node (accepts ++ [.conn remoteAddr])).accepted =
          (accepts ++ [AcceptResult.conn remoteAddr]).length
      · rw [hfull, List.take_length, hrun0] at hrun
        omega
      · have hle : (listen node (accepts ++ [.conn remoteAddr])).accepted ≤ accepts.length := by
          simp only [List.length_append, List.length_singleton] at h2x hfull
          omega
        rw [List.take_append_of_le_length hle] at hrun
        exact hno accepts hs _ ((fiveFailedAt_iff accepts _ hle).2 (by omega))
  · obtain ⟨-, -, hstatus⟩ := h5 hs
    rw [hstatus]
    cases node.config.TerminateOnListenerExit <;> simp

/-- Witness of `listen_circuit_breaker`: two failures, a connection, then five
failures: the loop is left after the eighth accept, one peer was spawned, and
`listen` returns because `TerminateOnListenerExit` is not set. -/
theorem listen_circuit_breaker_witness :
    (listen (sampleNode 2)
      [.err "e", .err "e", .conn "10.0.0.9:4000", .err "e", .err "e", .err "e", .err "e",
        .err "e", .conn "10.0.0.9:4001"]).accepted = 8 ∧
    (listen (sampleNode 2)
      [.err "e", .err "e", .conn "10.0.0.9:4000", .err "e", .err "e", .err "e", .err "e",
        .err "e", .conn "10.0.0.9:4001"]).status = .exited := by
  have h := listen_circuit_breaker (sampleNode 2)
    [.err "e", .err "e", .conn "10.0.0.9:4000", .err "e", .err "e", .err "e", .err "e",
      .err "e", .conn "10.0.0.9:4001"]
  exact ⟨by decide, (h.2.2.2.2.2.2 (by decide)).2.2 (by decide)⟩

/-! ## Replication -/

theorem get_congr_index {α : Type} (l : List α) (i j : Nat) (hi : i < l.length)
    (hj : j < l.length) (h : i = j) : l.get ⟨i, hi⟩ = l.get ⟨j, hj⟩ := by
  subst h; rfl

/-- The replication loop started on a cursor inside the peer list: it runs to
its end, sends message number `k` to the peer at position `(cursor + k) % n`
and leaves the cursor at `(cursor + count) % n`. -/
theorem replicationLoop_spec (peers : List remoteNode) (msg : PutMessage)
    (hn : 0 < peers.length) :
    ∀ (count nodeIndex : Nat) (sent : List (remoteNode × PutMessage)),
      nodeIndex < peers.length →
      replicationLoop peers msg count nodeIndex sent =
        ((nodeIndex + count) % peers.length,
          sent ++ (List.range count).map (fun k =>
            (peers.get ⟨(nodeIndex + k) % peers.length, Nat.mod_lt _ hn⟩, msg)),
          true) := by
  intro count
  induction count with
  | zero =>
    intro nodeIndex sent hc
    simp [replicationLoop, Nat.mod_eq_of_lt hc]
  | succ count ih =>
    intro nodeIndex sent hc
    have hget : peers.get? nodeIndex = some (peers.get ⟨nodeIndex, hc⟩) := List.get?_eq_get hc
    simp only [replicationLoop, hget]
    rw [ih _ _ (Nat.mod_lt _ hn)]
    refine Prod.ext ?_ (Prod.ext ?_ rfl)
    · simp only [Nat.mod_add_mod]
      congr 1
      omega
    · simp only [List.range_succ_eq_map, List.map_cons, List.map_map, List.append_assoc,
        List.singleton_append]
      congr 1
      refine congrArg₂ List.cons ?_ ?_
      · refine Prod.ext ?_ rfl
        exact get_congr_index peers _ _ _ _ (by simp [Nat.mod_eq_of_lt hc])
      · refine List.map_congr_left (fun k _ => ?_)
        refine Prod.ext ?_ rfl
        refine get_congr_index peers _ _ _ _ ?_
        simp only [Function.comp, Nat.mod_add_mod]
        congr 1
        omega

/-- A write that is replicated, cursor inside the peer list: the whole result
of `PutData`. -/
theorem PutData_replicates (bc : BigCache κ) (node : ClusteredBigCache κ) (key : String)
    (data : Bytes) (duration : Int)
    (hR : 1 < node.config.ReplicationFactor)
    (hn : node.config.ReplicationFactor ≤ (node.remoteNodes.Values.length : Int))
    (hpos : 0 < node.remoteNodes.Values.length)
    (hc : node.nodeIndex < node.remoteNodes.Values.length)
    (hset : (bc.Set node.cache key data duration).2.2 = none) :
    PutData bc node key data duration =
      ({ node with
          cache := (bc.Set node.cache key data duration).1
          nodeIndex := (node.nodeIndex + (node.config.ReplicationFactor - 1).toNat) %
            node.remoteNodes.Values.length
          sent := node.sent ++
            (List.range (node.config.ReplicationFactor - 1).toNat).map (fun k =>
              (node.remoteNodes.Values.get
                ⟨(node.nodeIndex + k) % node.remoteNodes.Values.length, Nat.mod_lt _ hpos⟩,
               { Key := key, Data := data,
                 Expiry := (bc.Set node.cache key data duration).2.1 })) },
        .returned none) := by
  have h1 : node.config.ReplicationFactor ≠ 1 := by omega
  have h2 : ¬ ((node.remoteNodes.Size : Int) < node.config.ReplicationFactor) := by
    rw [SliceList.Size_eq_length_Values]; omega
  unfold PutData
  rw [if_neg h1, if_neg h2]
  simp only [hset]
  rw [replicationLoop_spec _ _ hpos _ _ _ hc]
  rfl

/-- Positions `(cursor + k) % n` for fewer than `n` consecutive `k` are distinct. -/
theorem rotation_injective (n cursor k1 k2 : Nat) (h1 : k1 < n) (h2 : k2 < n)
    (h : (cursor + k1) % n = (cursor + k2) % n) : k1 = k2 := by
  have hmod : k1 ≡ k2 [MOD n] := Nat.ModEq.add_left_cancel' cursor h
  have := Nat.ModEq.eq_of_lt_of_lt hmod h1 h2
  exact this

/-- With the cursor inside a duplicate-free peer list of at least `R` peers, the
`R - 1` messages of a write go to pairwise distinct peers. -/
theorem PutData_replicas_distinct (bc : BigCache κ) (node : ClusteredBigCache κ) (key : String)
    (data : Bytes) (duration : Int)
    (hR : 1 < node.config.ReplicationFactor)
    (hn : node.config.ReplicationFactor ≤ (node.remoteNodes.Values.length : Int))
    (hc : node.nodeIndex < node.remoteNodes.Values.length)
    (hset : (bc.Set node.cache key data duration).2.2 = none)
    (hnodup : (node.remoteNodes.Values.map (fun held => held.config.Id)).Nodup) :
    ∃ messages : List (remoteNode × PutMessage),
      (PutData bc node key data duration).1.sent = node.sent ++ messages ∧
      (messages.length : Int) = node.config.ReplicationFactor - 1 ∧
      (messages.map (fun m => m.1.config.Id)).Nodup ∧
      ∀ m ∈ messages, m.1 ∈ node.remoteNodes.Values ∧
        m.2 = { Key := key, Data := data,
                Expiry := (bc.Set node.cache key data duration).2.1 } := by
  have hpos : 0 < node.remoteNodes.Values.length := by omega
  rw [PutData_replicates bc node key data duration hR hn hpos hc hset]
  refine ⟨_, rfl, ?_, ?_, ?_⟩
  · simp only [List.length_map, List.length_range]
    omega
  · rw [List.map_map]
    refine List.Nodup.map_on ?_ (List.nodup_range _)
    intro k1 hk1 k2 hk2 heq
    simp only [List.mem_range] at hk1 hk2
    simp only [Function.comp] at heq
    have hvals : (node.remoteNodes.Values.map (fun held => held.config.Id)).length =
        node.remoteNodes.Values.length := List.length_map _ _
    have hidx := (List.Nodup.get_inj_iff hnodup
      (i := ⟨(node.nodeIndex + k1) % node.remoteNodes.Values.length,
        by rw [hvals]; exact Nat.mod_lt _ hpos⟩)
      (j := ⟨(node.nodeIndex + k2) % node.remoteNodes.Values.length,
        by rw [hvals]; exact Nat.mod_lt _ hpos⟩)).1 (by simpa using heq)
    have hidx1 := congrArg Fin.val hidx
    simp only at hidx1
    exact rotation_injective _ _ _ _ (by omega) (by omega) hidx1
  · intro m hm
    simp only [List.mem_map, List.mem_range] at hm
    obtain ⟨k, -, rfl⟩ := hm
    exact ⟨List.get_mem _ _ _, rfl⟩

/-- A write whose local write fails, with enough peers: `PutData` returns that
error right after `cache.Set`; nothing is sent and the cursor stays. -/
theorem PutData_local_write_fails (bc : BigCache κ) (node : ClusteredBigCache κ) (key : String)
    (data : Bytes) (duration : Int) (err : Error)
    (hR : 1 < node.config.ReplicationFactor)
    (hn : node.config.ReplicationFactor ≤ (node.remoteNodes.Values.length : Int))
    (hset : (bc.Set node.cache key data duration).2.2 = some err) :
    PutData bc node key data duration =
      ({ node with cache := (bc.Set node.cache key data duration).1 },
        .returned (some err)) := by
  have h1 : node.config.ReplicationFactor ≠ 1 := by omega
  have h2 : ¬ ((node.remoteNodes.Size : Int) < node.config.ReplicationFactor) := by
    rw [SliceList.Size_eq_length_Values]; omega
  unfold PutData
  rw [if_neg h1, if_neg h2]
  simp only [hset]

/-- Claim C3, as the code has it. Replica selection is round-robin. With a
replication factor `R > 1`, a peer list of `n ≥ R` peers and the cursor `c` at
a position of that list (`c < n`): a `PutData` call whose local write succeeds
leaves the peer list as it is, sends `R - 1` messages, message number `k` (from
0) to the peer at position `(c + k) % n`, and leaves the cursor at
`(c + R - 1) % n`, again a position of the list; a call whose local write fails
returns that error, sends nothing and leaves the cursor at `c`. With peers
`[A, B, C]`, `R = 2` and the initial cursor 0, four consecutive writes go to
`A`, `B`, `C`, `A`. -/
theorem PutData_round_robin (bc : BigCache κ) (node : ClusteredBigCache κ) (key : String)
    (data : Bytes) (duration : Int)
    (hR : 1 < node.config.ReplicationFactor)
    (hn : node.config.ReplicationFactor ≤ (node.remoteNodes.Values.length : Int))
    (hc : node.nodeIndex < node.remoteNodes.Values.length) :
    ((bc.Set node.cache key data duration).2.2 = none →
      (PutData bc node key data duration).2 = .returned none ∧
      (PutData bc node key data duration).1.remoteNodes = node.remoteNodes ∧
      ((PutData bc node key data duration).1.sent.length : Int) =
        node.sent.length + (node.config.ReplicationFactor - 1) ∧
      (∃ messages, (PutData bc node key data duration).1.sent = node.sent ++ messages) ∧
      (∀ k : Nat, (k : Int) < node.config.ReplicationFactor - 1 →
        ∃ peer,
          node.remoteNodes.Values.get? ((node.nodeIndex + k) % node.remoteNodes.Values.length) =
            some peer ∧
          (PutData bc node key data duration).1.sent.get? (node.sent.length + k) =
            some (peer, { Key := key, Data := data,
                          Expiry := (bc.Set node.cache key data duration).2.1 })) ∧
      (PutData bc node key data duration).1.nodeIndex =
        (node.nodeIndex + (node.config.ReplicationFactor - 1).toNat) %
          node.remoteNodes.Values.length ∧
      (PutData bc node key data duration).1.nodeIndex < node.remoteNodes.Values.length) ∧
    (∀ err, (bc.Set node.cache key data duration).2.2 = some err →
      (PutData bc node key data duration).2 = .returned (some err) ∧
      (PutData bc node key data duration).1.remoteNodes = node.remoteNodes ∧
      (PutData bc node key data duration).1.sent = node.sent ∧
      (PutData bc node key data duration).1.nodeIndex = node.nodeIndex) ∧
    ((sampleCluster 2).remoteNodes.Values.map (fun held => held.config.Id) = ["A", "B", "C"] ∧
      (sampleCluster 2).config.ReplicationFactor = 2 ∧
      (sampleCluster 2).nodeIndex = 0 ∧
      (run memCache (sampleCluster 2) [samplePut, samplePut, samplePut, samplePut]).sent.map
        (fun m => m.1.config.Id) = ["A", "B", "C", "A"]) := by
  have hpos : 0 < node.remoteNodes.Values.length := by omega
  refine ⟨fun hset => ?_, fun err hset => ?_, by decide⟩
  · rw [PutData_replicates bc node key data duration hR hn hpos hc hset]
    refine ⟨rfl, rfl, ?_, ⟨_, rfl⟩, ?_, rfl, Nat.mod_lt _ hpos⟩
    · simp only [List.length_append, List.length_map, List.length_range]
      push_cast
      omega
    · intro k hk
      have hk1 : k < (node.config.ReplicationFactor - 1).toNat := by omega
      refine ⟨node.remoteNodes.Values.get
        ⟨(node.nodeIndex + k) % node.remoteNodes.Values.length, Nat.mod_lt _ hpos⟩,
        List.get?_eq_get _, ?_⟩
      simp only [List.get?_eq_getElem?]
      rw [List.getElem?_append_right (Nat.le_add_right _ _), Nat.add_sub_cancel_left,
        List.getElem?_map, List.getElem?_range hk1]
      rfl
  · rw [PutData_local_write_fails bc node key data duration err hR hn hset]
    exact ⟨rfl, rfl, rfl, rfl⟩

/-- Witness of `PutData_round_robin`: peers `[A, B, C]`, replication factor 2,
cursor 0: the message goes to `A` and the cursor moves to 1; a payload the
store refuses is not replicated and leaves the cursor at 0. -/
theorem PutData_round_robin_witness :
    ((PutData memCache (sampleCluster 2) "k" [1] 60).2 = .returned none ∧
      (PutData memCache (sampleCluster 2) "k" [1] 60).1.nodeIndex = 1) ∧
    (PutData memCache (sampleCluster 2) "k" [1, 2, 3, 4, 5] 60).1.nodeIndex = 0 :=
  have h := PutData_round_robin memCache (sampleCluster 2) "k" [1] 60
    (by decide) (by decide) (by decide)
  have h5 := PutData_round_robin memCache (sampleCluster 2) "k" [1, 2, 3, 4, 5] 60
    (by decide) (by decide) (by decide)
  ⟨⟨(h.1 (by decide)).1, (h.1 (by decide)).2.2.2.2.2.1.trans (by decide)⟩,
    ((h5.2.1 (.other "entry exceeds max size") (by decide)).2.2.2).trans (by decide)⟩

/-- Claim C3 as stated fails at two inputs that meet its conditions (`R = 2`,
`n ≥ R` peers). With peers `[A, B, C]` and cursor 0, a write of five bytes is
refused by the local store: no message goes to position 0 and the cursor stays
at 0, not `(0 + 2 - 1) % 3 = 1`. At `staleCursorNode`, peers `[A, B]` and
cursor 2: no message goes to position `(2 + 0) % 2 = 0`, the call panics and
the cursor stays at 2, not `(2 + 2 - 1) % 2 = 1`. -/
theorem PutData_round_robin_unstated_conditions :
    (1 < (sampleCluster 2).config.ReplicationFactor ∧
      (sampleCluster 2).config.ReplicationFactor ≤
        ((sampleCluster 2).remoteNodes.Values.length : Int) ∧
      (sampleCluster 2).nodeIndex = 0 ∧
      (PutData memCache (sampleCluster 2) "k" [1, 2, 3, 4, 5] 60).2 =
        .returned (some (.other "entry exceeds max size")) ∧
      (PutData memCache (sampleCluster 2) "k" [1, 2, 3, 4, 5] 60).1.sent =
        (sampleCluster 2).sent ∧
      (PutData memCache (sampleCluster 2) "k" [1, 2, 3, 4, 5] 60).1.nodeIndex ≠
        ((sampleCluster 2).nodeIndex + (2 - 1)) % (sampleCluster 2).remoteNodes.Values.length) ∧
    (1 < staleCursorNode.config.ReplicationFactor ∧
      staleCursorNode.config.ReplicationFactor ≤
        (staleCursorNode.remoteNodes.Values.length : Int) ∧
      staleCursorNode.nodeIndex = 2 ∧
      staleCursorNode.remoteNodes.Values.length = 2 ∧
      (memCache.Set staleCursorNode.cache "k" [1] 60).2.2 = none ∧
      (PutData memCache staleCursorNode "k" [1] 60).2 = .panicked "index out of range" ∧
      (PutData memCache staleCursorNode "k" [1] 60).1.sent.get? staleCursorNode.sent.length =
        none ∧
      (PutData memCache staleCursorNode "k" [1] 60).1.nodeIndex ≠
        (staleCursorNode.nodeIndex + (2 - 1)) % staleCursorNode.remoteNodes.Values.length) := by
  refine ⟨⟨by decide, by decide, by decide, by decide, by decide, by decide⟩,
    ⟨by decide, by decide, by decide, by decide, by decide, by decide, by decide, by decide⟩⟩

/-- Claim C10 fails on the code. From a fresh coordinator with replication
factor 2: `A`, `B`, `C` are admitted, two writes move the cursor to 2, `C`
disconnects. At the next `PutData` two peers are registered, so the replication
loop is reached with a snapshot of length 2 and the cursor 2: `peers[2]` is out
of range and the call panics. -/
theorem PutData_cursor_out_of_range :
    staleCursorNode =
      run memCache (New (sampleConfig 2) emptyMemCache)
        [.verify (samplePeer "A"), .verify (samplePeer "B"), .verify (samplePeer "C"),
          .put "k" [1] 60, .put "k" [1] 60,
          .disconnect { samplePeer "C" with indexInParent := 2 }] ∧
    (eventVerifyRemoteNode (run memCache (sampleNode 2)
        [.verify (samplePeer "A"), .verify (samplePeer "B")]) (samplePeer "C")).2.1 =
      { samplePeer "C" with indexInParent := 2 } ∧
    staleCursorNode.config.ReplicationFactor = 2 ∧
    staleCursorNode.remoteNodes.Size = 2 ∧
    staleCursorNode.remoteNodes.Values.length = 2 ∧
    staleCursorNode.nodeIndex = 2 ∧
    ¬ (staleCursorNode.nodeIndex < staleCursorNode.remoteNodes.Values.length) ∧
    (PutData memCache staleCursorNode "k" [1] 60).2 = .panicked "index out of range" := by
  refine ⟨rfl, by decide, by decide, by decide, by decide, by decide, by decide, by decide⟩

/-- Claim C2 fails on the code at `staleCursorNode`, a coordinator whose cursor
is beyond its peer list: replication factor 2, two registered peers, the local
write succeeds and is stored, but `PutData` sends no message and panics. -/
theorem PutData_stale_cursor_sends_nothing :
    1 < staleCursorNode.config.ReplicationFactor ∧
    staleCursorNode.config.ReplicationFactor ≤ (staleCursorNode.remoteNodes.Size : Int) ∧
    (memCache.Set staleCursorNode.cache "k" [1] 60).2.2 = none ∧
    memCache.Get (PutData memCache staleCursorNode "k" [1] 60).1.cache "k" = .ok [1] ∧
    (PutData memCache staleCursorNode "k" [1] 60).1.sent = staleCursorNode.sent ∧
    (PutData memCache staleCursorNode "k" [1] 60).2 = .panicked "index out of range" := by
  refine ⟨by decide, by decide, by decide, rfl, by decide, by decide⟩

end Cluster
